import Mathlib

/-!
Verification of the know-direction waypoint-graph pipeline.

A shallow embedding of the `know_direction` Python sources
(`travel_speed.py`, `world_geography.py`, `waypoint_graph.py`,
`create_waypoints.py`) together with theorems settling the frozen claims.

Modelling conventions:
* Geographic points are identity-based Python objects (`attrs(eq=False)`), so
  nodes are modelled as natural-number identities; coordinate data only ever
  enters through `GeoPoint.distance_to`, so worlds are parameterised by an
  abstract rational-valued distance function `dist : Nat → Nat → ℚ`
  (the source's haversine formula is a real-valued transcendental function;
  every claim here is independent of the metric's actual values).
* Python floats are modelled as rationals (all arithmetic in the claims is
  exact division and comparison).
* Fallible operations (a `BallTree.query` with `k` larger than the indexed
  collection, `min` of an empty sequence, a function raising) return
  `Option`/`Except` values, with `none`/`error` modelling the raised
  exception.
* `networkx.DiGraph` is modelled as a node list plus an ordered edge list
  with at most the semantics of the adjacency dictionary: `add_edge` on an
  ordered pair that is already present updates that pair's attributes in
  place, otherwise it appends a fresh edge.  Attribute dictionaries are
  modelled by `EdgeData`, with the `travel_time_in_day` key optional until
  the decoration pass sets it.
-/

/-- Travel modes, from `TravelMode` in `travel_speed.py` (and its duplicate
in `create_waypoints.py`). -/
inductive TravelMode where
  | OVERLAND
  | UPSTREAM
  | DOWNSTREAM
  | SEA
deriving DecidableEq, Repr

/-- `OverlandSpeedInfo` from `travel_speed.py`. -/
structure OverlandSpeedInfo where
  overland_speed_in_mile_per_day : ℚ
deriving DecidableEq, Repr

/-- `RiverSpeedInfo` from `travel_speed.py`. -/
structure RiverSpeedInfo where
  upstream_speed_in_miles_per_day : ℚ
  downstream_speed_in_miles_per_day : ℚ
deriving DecidableEq, Repr

/-- `SeaSpeedInfo` from `travel_speed.py`. -/
structure SeaSpeedInfo where
  seas_speed_in_miles_per_day : ℚ
deriving DecidableEq, Repr

/-- `SpeedInfo` from `travel_speed.py`. -/
structure SpeedInfo where
  overland_speeds : OverlandSpeedInfo
  river_speeds : RiverSpeedInfo
  sea_speeds : SeaSpeedInfo
deriving DecidableEq, Repr

/-- `SpeedInfo.distance_to_travel_time_in_days`: dispatch on the travel mode
and divide the distance by the matching speed.  The Python `else` branch
raising `RuntimeError` is unreachable because the enum is closed, which the
total match mirrors. -/
def SpeedInfo.distance_to_travel_time_in_days (s : SpeedInfo)
    (distance_in_miles : ℚ) (travel_mode : TravelMode) : ℚ :=
  match travel_mode with
  | .OVERLAND => distance_in_miles / s.overland_speeds.overland_speed_in_mile_per_day
  | .DOWNSTREAM => distance_in_miles / s.river_speeds.downstream_speed_in_miles_per_day
  | .UPSTREAM => distance_in_miles / s.river_speeds.upstream_speed_in_miles_per_day
  | .SEA => distance_in_miles / s.sea_speeds.seas_speed_in_miles_per_day

namespace travel_speed

/-- `ON_FOOT` from `travel_speed.py`. -/
def ON_FOOT : OverlandSpeedInfo := { overland_speed_in_mile_per_day := 20 }

/-- `NORMAL_RIVER` from `travel_speed.py`: upstream 15, downstream 40. -/
def NORMAL_RIVER : RiverSpeedInfo :=
  { upstream_speed_in_miles_per_day := 15
    downstream_speed_in_miles_per_day := 40 }

/-- `NORMAL_SEA` from `travel_speed.py`. -/
def NORMAL_SEA : SeaSpeedInfo := { seas_speed_in_miles_per_day := 100 }

/-- `DEFAULT_SPEED_INFO` from `travel_speed.py`. -/
def DEFAULT_SPEED_INFO : SpeedInfo :=
  { overland_speeds := ON_FOOT
    river_speeds := NORMAL_RIVER
    sea_speeds := NORMAL_SEA }

end travel_speed

namespace create_waypoints

/-- `ON_FOOT` from `create_waypoints.py`. -/
def ON_FOOT : OverlandSpeedInfo := { overland_speed_in_mile_per_day := 20 }

/-- `NORMAL_RIVER` from `create_waypoints.py`: upstream 40, downstream 15 —
the swapped draft. -/
def NORMAL_RIVER : RiverSpeedInfo :=
  { upstream_speed_in_miles_per_day := 40
    downstream_speed_in_miles_per_day := 15 }

/-- `NORMAL_SEA` from `create_waypoints.py`. -/
def NORMAL_SEA : SeaSpeedInfo := { seas_speed_in_miles_per_day := 100 }

/-- `DEFAULT_SPEED_INFO` from `create_waypoints.py`. -/
def DEFAULT_SPEED_INFO : SpeedInfo :=
  { overland_speeds := ON_FOOT
    river_speeds := NORMAL_RIVER
    sea_speeds := NORMAL_SEA }

end create_waypoints

/-- The attribute dictionary of a `networkx.DiGraph` edge as this program
populates it: `distance` and `travel_mode` are set by every `add_edge`
call; the `travel_time_in_day` key exists only after
`decorate_with_travel_time_in_place` has run (`none` = key absent). -/
structure EdgeData where
  distance : ℚ
  travel_mode : TravelMode
  travel_time_in_day : Option ℚ := none
deriving DecidableEq, Repr

/-- `networkx.DiGraph`: an insertion-ordered node list and an
insertion-ordered edge list keyed by the ordered node pair (a simple
directed graph — at most one edge per ordered pair when built through
`add_edge`). -/
structure DiGraph where
  nodes : List Nat
  edges : List (Nat × Nat × EdgeData)
deriving DecidableEq, Repr

/-- `networkx.DiGraph()`. -/
def DiGraph.empty : DiGraph := { nodes := [], edges := [] }

/-- `G.add_node`: appends the node unless already present. -/
def DiGraph.add_node (g : DiGraph) (u : Nat) : DiGraph :=
  if g.nodes.contains u then g else { g with nodes := g.nodes ++ [u] }

/-- `G.add_nodes_from`. -/
def DiGraph.add_nodes (g : DiGraph) (us : List Nat) : DiGraph :=
  us.foldl DiGraph.add_node g

/-- Whether the ordered pair `(u, v)` already carries an edge. -/
def DiGraph.hasPair (g : DiGraph) (u v : Nat) : Bool :=
  g.edges.any (fun e => e.1 = u && e.2.1 = v)

/-- `G.add_edge(u, v, distance=d, travel_mode=m)`: endpoints are added as
nodes if missing; if the ordered pair already has an edge its `distance`
and `travel_mode` keys are updated (any `travel_time_in_day` key survives,
as with a Python dict update), otherwise a fresh edge is appended with no
time key. -/
def DiGraph.add_edge (g : DiGraph) (u v : Nat) (d : ℚ) (m : TravelMode) : DiGraph :=
  let g' := (g.add_node u).add_node v
  if g'.hasPair u v then
    { g' with edges := g'.edges.map (fun e =>
        if e.1 = u && e.2.1 = v then
          (u, v, { distance := d, travel_mode := m,
                   travel_time_in_day := e.2.2.travel_time_in_day })
        else e) }
  else
    { g' with edges := g'.edges ++ [(u, v, { distance := d, travel_mode := m })] }

/-- `G.edges[u, v]`: the attribute dictionary of the `(u, v)` edge (`none`
models the `KeyError` on a missing edge). -/
def DiGraph.edgeData (g : DiGraph) (u v : Nat) : Option EdgeData :=
  (g.edges.find? (fun e => e.1 = u && e.2.1 = v)).map (fun e => e.2.2)

/-- The `(distance, travel_mode)` pair of the `(u, v)` edge, ignoring the
time key. -/
def DiGraph.edgeModeDist (g : DiGraph) (u v : Nat) : Option (ℚ × TravelMode) :=
  (g.edgeData u v).map (fun e => (e.distance, e.travel_mode))

/-- The time key of the `(u, v)` edge, if the edge exists and is decorated. -/
def DiGraph.edgeTime (g : DiGraph) (u v : Nat) : Option ℚ :=
  match g.edgeData u v with
  | some e => e.travel_time_in_day
  | none => none

/-- How many edges the ordered pair `(u, v)` carries (a multigraph would
allow more than one; `networkx.DiGraph` keeps at most one). -/
def DiGraph.pairCount (g : DiGraph) (u v : Nat) : Nat :=
  (g.edges.filter (fun e => e.1 = u && e.2.1 = v)).length

/-- How many edges of the graph carry the given travel mode. -/
def DiGraph.countMode (g : DiGraph) (m : TravelMode) : Nat :=
  (g.edges.filter (fun e => e.2.2.travel_mode = m)).length

/-- `decorate_with_travel_time_in_place` from `create_waypoints.py`: set
every edge's `travel_time_in_day` attribute from its distance and travel
mode. -/
def decorate_with_travel_time_in_place (waypoint_graph : DiGraph)
    (speeds : SpeedInfo) : DiGraph :=
  { waypoint_graph with
    edges := waypoint_graph.edges.map (fun e =>
      let t := speeds.distance_to_travel_time_in_days e.2.2.distance e.2.2.travel_mode
      (e.1, e.2.1, { e.2.2 with travel_time_in_day := some t })) }

/-- Total decorated travel time along a node path (`none` if some
consecutive pair has no edge or an undecorated edge). -/
def DiGraph.pathTime (g : DiGraph) : List Nat → Option ℚ
  | a :: b :: rest => do
      let e ← g.edgeData a b
      let t ← e.travel_time_in_day
      let tr ← g.pathTime (b :: rest)
      pure (t + tr)
  | _ => some 0

/-- Whether consecutive nodes of the path are all joined by edges. -/
def DiGraph.isPath (g : DiGraph) : List Nat → Bool
  | a :: b :: rest => g.hasPair a b && g.isPath (b :: rest)
  | _ => true

/-- The key-ordering used by the proximity index: closer to the query point
first. -/
def distLe (dist : Nat → Nat → ℚ) (q : Nat) : Nat → Nat → Prop :=
  fun a b => dist q a ≤ dist q b

instance (dist : Nat → Nat → ℚ) (q : Nat) : DecidableRel (distLe dist q) :=
  fun a b => inferInstanceAs (Decidable (dist q a ≤ dist q b))

instance (dist : Nat → Nat → ℚ) (q : Nat) : IsTotal Nat (distLe dist q) :=
  ⟨fun a b => le_total (dist q a) (dist q b)⟩

instance (dist : Nat → Nat → ℚ) (q : Nat) : IsTrans Nat (distLe dist q) :=
  ⟨fun _ _ _ h1 h2 => le_trans h1 h2⟩

/-- `GeoPointProximity.closest_n_points_to` from `world_geography.py`: the
`BallTree` (haversine metric) query returns the `num_points` indexed points
nearest to the query point, ordered by increasing distance; `sklearn`'s
`BallTree.query` raises `ValueError` when `k` exceeds the number of indexed
points, modelled by `none`.  The indexed collection is the tuple the index
was created from, and a member query point is returned like any other point
(at distance zero, no self-exclusion). -/
def closest_n_points_to (dist : Nat → Nat → ℚ) (points : List Nat)
    (query_point : Nat) (num_points : Nat) : Option (List Nat) :=
  if points.length < num_points then none
  else some ((List.insertionSort (distLe dist query_point) points).take num_points)

/-- Python's `min(iterable, key=k)`: the first element attaining the
minimal key; `none` models the `ValueError` on an empty sequence. -/
def pyMin (key : Nat → ℚ) : List Nat → Option Nat
  | [] => none
  | x :: xs => some (xs.foldl (fun best y => if key y < key best then y else best) x)

/-- `River` from `world_geography.py`: an optional name, the ordered point
sequence in flow direction, and the `start`/`end` attributes whose attrs
defaults take the first and last point of the sequence.  Points are node
identities. -/
structure River where
  name : Option String
  points_in_direction_of_water_flow : List Nat
  start : Nat
  stop : Nat
deriving DecidableEq, Repr

/-- Constructing a `River(name=…, points_in_direction_of_water_flow=pts)`
value: the attrs validators only check element types, and the `start`/`end`
defaults evaluate `pts[0]` and `pts[-1]`, which raise `IndexError` (modelled
`none`) exactly when the sequence is empty.  A one-point sequence
constructs successfully with `start = end`. -/
def River.construct (name : Option String) (pts : List Nat) : Option River :=
  match pts with
  | [] => none
  | p :: rest =>
      some { name := name
             points_in_direction_of_water_flow := pts
             start := p
             stop := (p :: rest).getLast (List.cons_ne_nil p rest) }

/-- The per-placemark path of `River.load_rivers` in `world_geography.py`:
a placemark whose coordinate list has fewer than 2 entries raises
`RuntimeError` before any `River` is constructed. -/
def load_river_from_coords (name : Option String) (coords : List Nat) : Option River :=
  if coords.length < 2 then none else River.construct name coords

/-- `WorldGeography` as the graph builder consumes it: the city collection,
the river collection, and the great-circle metric on node identities. -/
structure WorldGeography where
  cities : List Nat
  rivers : List River
  dist : Nat → Nat → ℚ

/-- `WorldGeography._init_river_endpoint_kd_tree`: the river-endpoint index
is built over all river starts followed by all river ends. -/
def river_endpoints (rivers : List River) : List Nat :=
  rivers.map River.start ++ rivers.map River.stop

/-- The inner loop of `WaypointGraph._build_waypoints_from_rivers`: for each
consecutive pair of river points in flow order, add one DOWNSTREAM edge and
one UPSTREAM edge, both with the same computed segment distance. -/
def addRiverSegments (dist : Nat → Nat → ℚ) (g : DiGraph) : List Nat → DiGraph
  | a :: b :: rest =>
      let d := dist a b
      addRiverSegments dist (((g.add_edge a b d .DOWNSTREAM).add_edge b a d .UPSTREAM)) (b :: rest)
  | _ => g

/-- `WaypointGraph._build_waypoints_from_rivers`. -/
def build_waypoints_from_rivers (dist : Nat → Nat → ℚ) (rivers : List River)
    (g : DiGraph) : DiGraph :=
  rivers.foldl
    (fun g r =>
      addRiverSegments dist (g.add_nodes r.points_in_direction_of_water_flow)
        r.points_in_direction_of_water_flow)
    g

/-- The repeated two-`add_edge` pattern of the overland connection phases:
connect `c` and `o` bidirectionally with two OVERLAND edges, both carrying
the distance computed from `c` to `o`. -/
def ovAdd2 (dist : Nat → Nat → ℚ) (c : Nat) (g : DiGraph) (o : Nat) : DiGraph :=
  let d := dist c o
  (g.add_edge c o d .OVERLAND).add_edge o c d .OVERLAND

/-- `WaypointGraph._add_city_to_city_connections`: each city is connected
bidirectionally (OVERLAND) to its 30 nearest cities from the city index,
excluding itself.  The index query propagates its error. -/
def add_city_to_city_connections (dist : Nat → Nat → ℚ) (cities : List Nat)
    (g : DiGraph) : Option DiGraph :=
  cities.foldlM
    (fun g city => do
      let near ← closest_n_points_to dist cities city 30
      pure (near.foldl
        (fun g other => if city ≠ other then ovAdd2 dist city g other else g)
        g))
    g

/-- One river of `WaypointGraph._add_river_to_river_connections`: both the
river's `start` and `end` are connected bidirectionally (OVERLAND) to their
10 nearest river endpoints — with no self-exclusion. -/
def rrStep (dist : Nat → Nat → ℚ) (endpoints : List Nat) (g : DiGraph)
    (river : River) : Option DiGraph := do
  let near1 ← closest_n_points_to dist endpoints river.start 10
  let g := near1.foldl (ovAdd2 dist river.start) g
  let near2 ← closest_n_points_to dist endpoints river.stop 10
  pure (near2.foldl (ovAdd2 dist river.stop) g)

/-- `WaypointGraph._add_river_to_river_connections`. -/
def add_river_to_river_connections (dist : Nat → Nat → ℚ) (endpoints : List Nat)
    (rivers : List River) (g : DiGraph) : Option DiGraph :=
  rivers.foldlM (rrStep dist endpoints) g

/-- One (city, river) iteration of
`WaypointGraph._add_city_river_connections`: the city is connected
bidirectionally (OVERLAND) to the single point of that river closest to the
city (Python's `min` over all of the river's points, first minimum on
ties); both directed edges carry the city-to-closest-point distance. -/
def crStep (dist : Nat → Nat → ℚ) (city : Nat) (g : DiGraph)
    (river : River) : Option DiGraph :=
  match pyMin (dist city) river.points_in_direction_of_water_flow with
  | none => none
  | some m => some (ovAdd2 dist city g m)

/-- `WaypointGraph._add_city_river_connections`. -/
def add_city_river_connections (dist : Nat → Nat → ℚ) (cities : List Nat)
    (rivers : List River) (g : DiGraph) : Option DiGraph :=
  cities.foldlM (fun g city => rivers.foldlM (crStep dist city) g) g

/-- The graph built inside `WaypointGraph.create_from`, phase by phase in
source order: city nodes, river segments, city–city, river–river,
city–river.  `none` models an exception escaping a phase. -/
def create_from_graph (W : WorldGeography) : Option DiGraph := do
  let g := DiGraph.empty.add_nodes W.cities
  let g := build_waypoints_from_rivers W.dist W.rivers g
  let g ← add_city_to_city_connections W.dist W.cities g
  let g ← add_river_to_river_connections W.dist (river_endpoints W.rivers) W.rivers g
  add_city_river_connections W.dist W.cities W.rivers g

/-- The `WaypointGraph` attrs wrapper from `waypoint_graph.py`. -/
structure WaypointGraph where
  graph : DiGraph
deriving DecidableEq, Repr

/-- `WaypointGraph.create_from(world_geography)`: the method builds the
waypoint graph through the four phases but ends without a `return`
statement, so Python returns `None`.  The outer `Option` models an
exception escaping the phases; the inner value is the method's return
value: always `none` (Python `None`), never a `WaypointGraph`. -/
def WaypointGraph.create_from (W : WorldGeography) : Option (Option WaypointGraph) :=
  (create_from_graph W).map (fun _ => none)

/-- The successors of `u` in edge-insertion order (the iteration order of
the `networkx` adjacency dictionary). -/
def DiGraph.succs (g : DiGraph) (u : Nat) : List Nat :=
  (g.edges.filter (fun e => e.1 = u)).map (fun e => e.2.1)

/-- Breadth-first search kernel for `nx_shortest_path`: the queue holds
reversed paths; a node enters `visited` when enqueued, so each node is
expanded at most once and the first path reaching the target has the fewest
edges.  The fuel strictly bounds the number of dequeues. -/
def bfsGo (g : DiGraph) (t : Nat) : Nat → List (List Nat) → List Nat → Option (List Nat)
  | 0, _, _ => none
  | _ + 1, [], _ => none
  | fuel + 1, p :: queue, visited =>
      match p with
      | [] => bfsGo g t fuel queue visited
      | u :: _ =>
          if u = t then some p.reverse
          else
            let nexts := (g.succs u).filter (fun v => !visited.contains v)
            bfsGo g t fuel (queue ++ nexts.map (fun v => v :: p)) (visited ++ nexts)

/-- `networkx.shortest_path(graph, source, target)` as `create_waypoints.py`
calls it: with no `weight` argument, `networkx` runs (bidirectional)
breadth-first search and returns a path with the fewest edges, ignoring
every edge attribute — in particular the decorated travel times.  Modelled
by plain breadth-first search; `none` models `NetworkXNoPath`. -/
def nx_shortest_path (g : DiGraph) (s t : Nat) : Option (List Nat) :=
  bfsGo g t (g.nodes.length + g.edges.length + 1) [[s]] [s]

/-- One rendered line of `pretty_print_path` output, with the formatted data
kept structured (string formatting of numbers is presentation detail the
claims do not touch). -/
inductive PrintedLine where
  | start (place : String)
  | travel (src dst : String) (mode : TravelMode) (days : ℚ)
deriving DecidableEq, Repr

/-- The loop body of `pretty_print_path`: for each consecutive pair, look
the edge up in the module-level `waypoint_graph` (a missing edge or a
missing `travel_time_in_day` key raises `KeyError`, modelled as an error)
and print the travel line. -/
def pppLoop (waypoint_graph : DiGraph) (prettyName : Nat → String) :
    List Nat → Except String (List PrintedLine)
  | a :: b :: rest =>
      match waypoint_graph.edgeData a b with
      | none => .error "KeyError: edge"
      | some e =>
          match e.travel_time_in_day with
          | none => .error "KeyError: travel_time_in_day"
          | some t => do
              let tl ← pppLoop waypoint_graph prettyName (b :: rest)
              pure (PrintedLine.travel (prettyName a) (prettyName b) e.travel_mode t :: tl)
  | _ => pure []

/-- `pretty_print_path(wayppint_graph, path)` from `create_waypoints.py`.
The function's parameter is the misspelled `wayppint_graph`; its body reads
the name `waypoint_graph`, which resolves to the module-level global (here
the first argument, together with the ambient `pretty_string` rendering).
Fewer than 2 path nodes raise `RuntimeError`. -/
def pretty_print_path (waypoint_graph : DiGraph) (prettyName : Nat → String)
    (wayppint_graph : DiGraph) (path : List Nat) : Except String (List PrintedLine) :=
  if path.length < 2 then .error "Path length cannot be less than 2"
  else do
    let tl ← pppLoop waypoint_graph prettyName path
    pure (PrintedLine.start (prettyName (path.headD 0)) :: tl)

/-- The kind of a waypoint as the canonicalizer distinguishes them: a city
or a river point carrying its (optional) river name. -/
inductive WaypointKind where
  | city (name : String)
  | riverPoint (river_name : Option String)
deriving DecidableEq, Repr

/-- A node as seen by the canonicalizer: identity plus kind. -/
structure CanonNode where
  id : Nat
  kind : WaypointKind
deriving DecidableEq, Repr

/-- `DirectionsStep`: one display-ready travel step. -/
structure DirectionsStep where
  source : Nat
  destination : Nat
  distance : ℚ
  time : ℚ
  travel_mode : TravelMode
  river_name : Option String
deriving DecidableEq, Repr

/-- One consecutive leg of a raw shortest path: the two endpoint nodes and
the chosen edge's mode, distance and decorated time. -/
structure RawLeg where
  source : CanonNode
  destination : CanonNode
  travel_mode : TravelMode
  distance : ℚ
  time : ℚ
deriving DecidableEq, Repr

/-- The river name of a node, when it is a river point. -/
def CanonNode.riverName (n : CanonNode) : Option String :=
  match n.kind with
  | .riverPoint rn => rn
  | .city _ => none

/-- Whether a node is a river point. -/
def CanonNode.isRiver (n : CanonNode) : Bool :=
  match n.kind with
  | .riverPoint _ => true
  | .city _ => false

/-- Modelled from the spec: the candidate `DirectionsStep` built for one
consecutive edge — source, destination, mode, distance, time, and river
name taken from the source point when it is a river point, else none.  The
Path Canonicalizer and `DirectionsStep` are absent from `src/`
(`pretty_print_path` prints raw segments); they are modelled from spec
§4.6. -/
def mkCandidate (l : RawLeg) : DirectionsStep :=
  { source := l.source.id
    destination := l.destination.id
    distance := l.distance
    time := l.time
    travel_mode := l.travel_mode
    river_name := l.source.riverName }

/-- Modelled from the spec: a leg is river-eligible when both its endpoints
are river points. -/
def legEligible (l : RawLeg) : Bool :=
  l.source.isRiver && l.destination.isRiver

/-- Collapse a non-empty buffer `b0 :: bs` of river steps into a single
step spanning from the buffer's first source to its last destination, with
summed distance and summed time, preserving the buffer's travel mode and
river name (spec §4.6 flush rule). -/
def collapseBuffer (b0 : DirectionsStep) (bs : List DirectionsStep) : DirectionsStep :=
  { source := b0.source
    destination := ((bs.getLastD b0)).destination
    distance := b0.distance + (bs.map DirectionsStep.distance).sum
    time := b0.time + (bs.map DirectionsStep.time).sum
    travel_mode := b0.travel_mode
    river_name := b0.river_name }

/-- Flushing the pending buffer at end of input: empty yields nothing,
otherwise the collapsed single step. -/
def flushBuffer : List DirectionsStep → List DirectionsStep
  | [] => []
  | b0 :: bs => [collapseBuffer b0 bs]

/-- Modelled from the spec: the single left-to-right reduction of §4.6 over
candidate steps paired with their river-eligibility.  A zero-distance step
is dropped without touching the buffer (skip rule); otherwise an eligible
step sharing the buffer head's river name and travel mode extends the
buffer (extend rule); otherwise the buffer is flushed and the current step
starts a new buffer if eligible, else is emitted directly (flush rule); at
the end the remaining buffer is flushed. -/
def canonGo : List DirectionsStep → List DirectionsStep →
    List (DirectionsStep × Bool) → List DirectionsStep
  | buffer, acc, [] => acc ++ flushBuffer buffer
  | buffer, acc, (s, elig) :: rest =>
      if s.distance = 0 then canonGo buffer acc rest
      else
        match buffer with
        | [] =>
            if elig then canonGo [s] acc rest
            else canonGo [] (acc ++ [s]) rest
        | b0 :: bs =>
            if elig ∧ s.river_name = b0.river_name ∧ s.travel_mode = b0.travel_mode then
              canonGo (b0 :: bs ++ [s]) acc rest
            else
              let acc2 := acc ++ [collapseBuffer b0 bs]
              if elig then canonGo [s] acc2 rest
              else canonGo [] (acc2 ++ [s]) rest

/-- Modelled from the spec: the Path Canonicalizer.  A node sequence of
length < 2 — equivalently, an empty leg list — fails with `PathTooShort`;
otherwise the candidate steps are reduced by the collapsing pass. -/
def canonicalize_path (legs : List RawLeg) : Except String (List DirectionsStep) :=
  if legs.isEmpty then .error "PathTooShort"
  else .ok (canonGo [] [] (legs.map (fun l => (mkCandidate l, legEligible l))))


/-! ## Basic facts about the graph model -/

theorem DiGraph.add_node_edges (g : DiGraph) (u : Nat) :
    (g.add_node u).edges = g.edges := by
  unfold DiGraph.add_node
  split <;> rfl

theorem DiGraph.add_nodes_edges (us : List Nat) :
    ∀ g : DiGraph, (g.add_nodes us).edges = g.edges := by
  induction us with
  | nil => intro g; rfl
  | cons x xs ih =>
      intro g
      show (DiGraph.add_nodes (g.add_node x) xs).edges = g.edges
      rw [ih, DiGraph.add_node_edges]

theorem DiGraph.hasPair_eq (g : DiGraph) (u v : Nat) :
    g.hasPair u v = g.edges.any (fun e => e.1 = u && e.2.1 = v) := rfl

theorem DiGraph.hasPair_add_node (g : DiGraph) (x u v : Nat) :
    (g.add_node x).hasPair u v = g.hasPair u v := by
  rw [DiGraph.hasPair_eq, DiGraph.hasPair_eq, DiGraph.add_node_edges]

/-- When the ordered pair is not yet present, `add_edge` appends a fresh
undecorated edge. -/
theorem DiGraph.add_edge_edges_of_not_hasPair {g : DiGraph} {u v : Nat} (d : ℚ)
    (m : TravelMode) (h : g.hasPair u v = false) :
    (g.add_edge u v d m).edges =
      g.edges ++ [(u, v, { distance := d, travel_mode := m, travel_time_in_day := none })] := by
  have h' : ((g.add_node u).add_node v).hasPair u v = false := by
    rw [DiGraph.hasPair_add_node, DiGraph.hasPair_add_node]; exact h
  simp only [DiGraph.add_edge, h', Bool.false_eq_true, if_false]
  rw [DiGraph.add_node_edges, DiGraph.add_node_edges]

/-- When the ordered pair is present, `add_edge` rewrites the matching
entries in place. -/
theorem DiGraph.add_edge_edges_of_hasPair {g : DiGraph} {u v : Nat} (d : ℚ)
    (m : TravelMode) (h : g.hasPair u v = true) :
    (g.add_edge u v d m).edges =
      g.edges.map (fun e =>
        if e.1 = u && e.2.1 = v then
          (u, v, { distance := d, travel_mode := m,
                   travel_time_in_day := e.2.2.travel_time_in_day })
        else e) := by
  have h' : ((g.add_node u).add_node v).hasPair u v = true := by
    rw [DiGraph.hasPair_add_node, DiGraph.hasPair_add_node]; exact h
  simp only [DiGraph.add_edge, h', if_true]
  rw [DiGraph.add_node_edges, DiGraph.add_node_edges]

/-- The edge-lookup predicate for an ordered node pair, as used by
`hasPair`, `edgeData` and `pairCount`. -/
def epred (u v : Nat) : Nat × Nat × EdgeData → Bool :=
  fun e => e.1 = u && e.2.1 = v

/-- The in-place attribute update `add_edge` applies to a present pair. -/
def eupd (u v : Nat) (d : ℚ) (m : TravelMode) : Nat × Nat × EdgeData → Nat × Nat × EdgeData :=
  fun e =>
    if e.1 = u && e.2.1 = v then
      (u, v, { distance := d, travel_mode := m,
               travel_time_in_day := e.2.2.travel_time_in_day })
    else e

theorem DiGraph.hasPair_def (g : DiGraph) (u v : Nat) :
    g.hasPair u v = g.edges.any (epred u v) := rfl

theorem DiGraph.edgeData_def (g : DiGraph) (u v : Nat) :
    g.edgeData u v = (g.edges.find? (epred u v)).map (fun e => e.2.2) := rfl

theorem DiGraph.pairCount_def (g : DiGraph) (u v : Nat) :
    g.pairCount u v = (g.edges.filter (epred u v)).length := rfl

theorem add_edge_edges_update {g : DiGraph} {u v : Nat} (d : ℚ) (m : TravelMode)
    (h : g.hasPair u v = true) :
    (g.add_edge u v d m).edges = g.edges.map (eupd u v d m) :=
  DiGraph.add_edge_edges_of_hasPair d m h

theorem epred_self (u v : Nat) (d : ℚ) (m : TravelMode) (t : Option ℚ) :
    epred u v (u, v, { distance := d, travel_mode := m, travel_time_in_day := t }) = true := by
  simp [epred]

theorem epred_eupd (u v a b : Nat) (d : ℚ) (m : TravelMode) (h : ¬(u = a ∧ v = b))
    (e : Nat × Nat × EdgeData) : epred a b (eupd u v d m e) = epred a b e := by
  unfold eupd
  by_cases hp : (e.1 = u && e.2.1 = v) = true
  · simp only [hp, if_true]
    simp only [Bool.and_eq_true, decide_eq_true_eq] at hp
    unfold epred
    rcases Decidable.em (u = a) with hua | hua
    · rcases Decidable.em (v = b) with hvb | hvb
      · exact absurd ⟨hua, hvb⟩ h
      · simp [hp.1, hp.2, hua, hvb]
    · simp [hp.1, hp.2, hua]
  · simp [hp]

theorem eupd_fix (u v a b : Nat) (d : ℚ) (m : TravelMode) (h : ¬(u = a ∧ v = b))
    (e : Nat × Nat × EdgeData) (he : epred a b e = true) : eupd u v d m e = e := by
  unfold eupd
  unfold epred at he
  simp only [Bool.and_eq_true, decide_eq_true_eq] at he
  by_cases hp : (e.1 = u && e.2.1 = v) = true
  · simp only [Bool.and_eq_true, decide_eq_true_eq] at hp
    exact absurd ⟨by rw [← hp.1, he.1], by rw [← hp.2, he.2]⟩ h
  · simp [hp]

/-- `find?` through the in-place update of `add_edge`: the first matching
entry keeps its position and receives the new attributes over its old time
key. -/
theorem find_eupd_self (u v : Nat) (d : ℚ) (m : TravelMode) :
    ∀ l : List (Nat × Nat × EdgeData),
      (l.map (eupd u v d m)).find? (epred u v) =
        (l.find? (epred u v)).map (fun e =>
          (u, v, ({ distance := d, travel_mode := m,
                    travel_time_in_day := e.2.2.travel_time_in_day } : EdgeData))) := by
  intro l
  induction l with
  | nil => rfl
  | cons e es ih =>
      rw [List.map_cons]
      by_cases hp : epred u v e = true
      · have h1 : eupd u v d m e =
            (u, v, ({ distance := d, travel_mode := m,
                      travel_time_in_day := e.2.2.travel_time_in_day } : EdgeData)) := by
          unfold eupd
          unfold epred at hp
          simp only [hp, if_true]
        rw [h1, List.find?_cons_of_pos _ (epred_self u v d m _),
          List.find?_cons_of_pos _ hp]
        rfl
      · have hfix : eupd u v d m e = e := by
          unfold eupd
          unfold epred at hp
          simp only [Bool.not_eq_true] at hp
          simp [hp]
        rw [hfix, List.find?_cons_of_neg _ hp, List.find?_cons_of_neg _ hp, ih]

/-- `find?` commutes with a map that fixes matches and match statuses. -/
theorem find_map_fix {α : Type} (q : α → Bool) (f : α → α)
    (hq : ∀ e, q (f e) = q e) (hfix : ∀ e, q e = true → f e = e) :
    ∀ l : List α, (l.map f).find? q = l.find? q := by
  intro l
  induction l with
  | nil => rfl
  | cons e es ih =>
      rw [List.map_cons]
      by_cases hp : q e = true
      · rw [List.find?_cons_of_pos _ (by rw [hq]; exact hp),
          List.find?_cons_of_pos _ hp, hfix e hp]
      · rw [List.find?_cons_of_neg _ (by rw [hq]; exact hp),
          List.find?_cons_of_neg _ hp, ih]

theorem find_none_of_any_false {α : Type} {q : α → Bool} {l : List α}
    (h : l.any q = false) : l.find? q = none := by
  rw [List.find?_eq_none]
  intro x hx hqx
  have : l.any q = true := List.any_eq_true.mpr ⟨x, hx, hqx⟩
  rw [h] at this
  cases this

/-- After `add_edge u v`, looking up `(u, v)` yields the new attributes,
over the previous time key when the edge already existed. -/
theorem DiGraph.edgeData_add_edge_self (g : DiGraph) (u v : Nat) (d : ℚ) (m : TravelMode) :
    (g.add_edge u v d m).edgeData u v =
      some { distance := d, travel_mode := m, travel_time_in_day := g.edgeTime u v } := by
  cases h : g.hasPair u v with
  | false =>
      rw [DiGraph.edgeData_def, DiGraph.add_edge_edges_of_not_hasPair d m h, List.find?_append]
      have hnone : g.edges.find? (epred u v) = none :=
        find_none_of_any_false (by rw [← DiGraph.hasPair_def]; exact h)
      rw [hnone, List.find?_cons_of_pos _ (epred_self u v d m _)]
      have ht : g.edgeTime u v = none := by
        unfold DiGraph.edgeTime
        rw [DiGraph.edgeData_def, hnone]
        rfl
      rw [ht]
      rfl
  | true =>
      rw [DiGraph.edgeData_def, add_edge_edges_update d m h, find_eupd_self]
      have h' : (g.edges.any (epred u v)) = true := by rw [← DiGraph.hasPair_def]; exact h
      obtain ⟨x, hx, hqx⟩ := List.any_eq_true.mp h'
      obtain ⟨e₀, he₀⟩ : ∃ e₀, g.edges.find? (epred u v) = some e₀ := by
        cases hf : g.edges.find? (epred u v) with
        | none => rw [List.find?_eq_none] at hf; exact absurd hqx (hf x hx)
        | some e₀ => exact ⟨e₀, rfl⟩
      rw [he₀]
      have ht : g.edgeTime u v = e₀.2.2.travel_time_in_day := by
        unfold DiGraph.edgeTime
        rw [DiGraph.edgeData_def, he₀]
        rfl
      rw [ht]
      rfl

/-- `add_edge u v` leaves every other ordered pair's lookup unchanged. -/
theorem DiGraph.edgeData_add_edge_ne (g : DiGraph) {u v a b : Nat} (d : ℚ) (m : TravelMode)
    (h : ¬(u = a ∧ v = b)) :
    (g.add_edge u v d m).edgeData a b = g.edgeData a b := by
  cases hp : g.hasPair u v with
  | false =>
      rw [DiGraph.edgeData_def, DiGraph.edgeData_def,
        DiGraph.add_edge_edges_of_not_hasPair d m hp, List.find?_append]
      have h2 : epred a b ((u, v,
          ({ distance := d, travel_mode := m, travel_time_in_day := none } : EdgeData))) = false := by
        unfold epred
        by_cases hua : u = a
        · by_cases hvb : v = b
          · exact absurd ⟨hua, hvb⟩ h
          · simp [hvb]
        · simp [hua]
      have hsing : ([(u, v,
          ({ distance := d, travel_mode := m, travel_time_in_day := none } : EdgeData))].find?
            (epred a b)) = none := by
        rw [List.find?_cons_of_neg _ (by rw [h2]; simp)]
        rfl
      rw [hsing]
      cases hf : g.edges.find? (epred a b) <;> rfl
  | true =>
      rw [DiGraph.edgeData_def, DiGraph.edgeData_def, add_edge_edges_update d m hp,
        find_map_fix (epred a b) (eupd u v d m) (epred_eupd u v a b d m h)
          (eupd_fix u v a b d m h)]

theorem DiGraph.edgeModeDist_add_edge_self (g : DiGraph) (u v : Nat) (d : ℚ) (m : TravelMode) :
    (g.add_edge u v d m).edgeModeDist u v = some (d, m) := by
  unfold DiGraph.edgeModeDist
  rw [DiGraph.edgeData_add_edge_self]
  rfl

theorem DiGraph.edgeModeDist_add_edge_ne (g : DiGraph) {u v a b : Nat} (d : ℚ) (m : TravelMode)
    (h : ¬(u = a ∧ v = b)) :
    (g.add_edge u v d m).edgeModeDist a b = g.edgeModeDist a b := by
  unfold DiGraph.edgeModeDist
  rw [DiGraph.edgeData_add_edge_ne g d m h]

/-- `add_edge` never changes how many edges any ordered pair carries,
except that a fresh pair goes from zero to one. -/
theorem DiGraph.pairCount_add_edge_self (g : DiGraph) (u v : Nat) (d : ℚ) (m : TravelMode) :
    (g.add_edge u v d m).pairCount u v = max 1 (g.pairCount u v) := by
  cases h : g.hasPair u v with
  | false =>
      rw [DiGraph.pairCount_def, DiGraph.pairCount_def,
        DiGraph.add_edge_edges_of_not_hasPair d m h, List.filter_append, List.length_append]
      have h0 : (g.edges.filter (epred u v)).length = 0 := by
        rw [List.length_eq_zero, List.filter_eq_nil_iff]
        intro x hx hqx
        rw [DiGraph.hasPair_def] at h
        have hfalse := List.any_eq_true.mpr ⟨x, hx, hqx⟩
        rw [h] at hfalse
        cases hfalse
      rw [h0]
      rw [List.filter_cons_of_pos (epred_self u v d m _)]
      rfl
  | true =>
      rw [DiGraph.pairCount_def, DiGraph.pairCount_def, add_edge_edges_update d m h]
      have hlen : ((g.edges.map (eupd u v d m)).filter (epred u v)).length =
          (g.edges.filter (epred u v)).length := by
        rw [← List.countP_eq_length_filter, ← List.countP_eq_length_filter, List.countP_map]
        apply List.countP_congr
        intro e _
        have hpe : epred u v (eupd u v d m e) = epred u v e := by
          unfold eupd
          by_cases hp2 : (e.1 = u && e.2.1 = v) = true
          · simp only [hp2, if_true, epred_self]
            unfold epred at hp2
            exact hp2.symm
          · simp [hp2]
        rw [Function.comp_apply, hpe]
      rw [hlen]
      have hpos : 0 < (g.edges.filter (epred u v)).length := by
        rw [DiGraph.hasPair_def] at h
        obtain ⟨x, hx, hqx⟩ := List.any_eq_true.mp h
        exact List.length_pos.mpr (fun hnil => by
          have := List.mem_filter.mpr ⟨hx, hqx⟩
          rw [hnil] at this
          cases this)
      exact (Nat.max_eq_right hpos).symm

theorem DiGraph.pairCount_add_edge_ne (g : DiGraph) {u v a b : Nat} (d : ℚ) (m : TravelMode)
    (h : ¬(u = a ∧ v = b)) :
    (g.add_edge u v d m).pairCount a b = g.pairCount a b := by
  cases hp : g.hasPair u v with
  | false =>
      rw [DiGraph.pairCount_def, DiGraph.pairCount_def,
        DiGraph.add_edge_edges_of_not_hasPair d m hp, List.filter_append, List.length_append]
      have h2 : epred a b ((u, v,
          ({ distance := d, travel_mode := m, travel_time_in_day := none } : EdgeData))) = false := by
        unfold epred
        by_cases hua : u = a
        · by_cases hvb : v = b
          · exact absurd ⟨hua, hvb⟩ h
          · simp [hvb]
        · simp [hua]
      rw [List.filter_cons_of_neg (by rw [h2]; simp)]
      rfl
  | true =>
      rw [DiGraph.pairCount_def, DiGraph.pairCount_def, add_edge_edges_update d m hp,
        ← List.countP_eq_length_filter, ← List.countP_eq_length_filter, List.countP_map]
      apply List.countP_congr
      intro e _
      rw [Function.comp_apply, epred_eupd u v a b d m h e]

/-! ## Fold combinators for the construction phases -/

theorem foldl_preserve {α β : Type} (f : β → α → β) (Φ : β → Prop)
    (hf : ∀ g x, Φ g → Φ (f g x)) :
    ∀ (l : List α) (g : β), Φ g → Φ (l.foldl f g)
  | [], _, hg => hg
  | x :: xs, g, hg => foldl_preserve f Φ hf xs (f g x) (hf g x hg)

theorem foldl_establish {α β : Type} (f : β → α → β) (Φ : β → Prop)
    (hf : ∀ g x, Φ g → Φ (f g x)) (x₀ : α) (hset : ∀ g, Φ (f g x₀)) :
    ∀ (l : List α) (g : β), x₀ ∈ l → Φ (l.foldl f g) := by
  intro l
  induction l with
  | nil => intro g h; cases h
  | cons y ys ih =>
      intro g hmem
      rcases List.mem_cons.mp hmem with h | h
      · subst h
        exact foldl_preserve f Φ hf ys (f g x₀) (hset g)
      · exact ih (f g y) h

theorem foldlM_option_cons_some {α β : Type} {f : β → α → Option β} {g g' : β} {x : α}
    {xs : List α} (h : List.foldlM f g (x :: xs) = some g') :
    ∃ g₁, f g x = some g₁ ∧ List.foldlM f g₁ xs = some g' := by
  rw [List.foldlM_cons] at h
  cases hfx : f g x with
  | none => rw [hfx] at h; cases h
  | some g₁ =>
      rw [hfx] at h
      exact ⟨g₁, rfl, h⟩

theorem foldlM_option_preserve {α β : Type} (f : β → α → Option β) (Φ : β → Prop)
    (hf : ∀ g x g', f g x = some g' → Φ g → Φ g') :
    ∀ (l : List α) (g g' : β), List.foldlM f g l = some g' → Φ g → Φ g' := by
  intro l
  induction l with
  | nil =>
      intro g g' h hg
      rw [List.foldlM_nil] at h
      exact (Option.some.inj h) ▸ hg
  | cons x xs ih =>
      intro g g' h hg
      obtain ⟨g₁, h1, h2⟩ := foldlM_option_cons_some h
      exact ih g₁ g' h2 (hf g x g₁ h1 hg)

theorem foldlM_option_isSome {α β : Type} (f : β → α → Option β)
    (hf : ∀ g x, (f g x).isSome = true) :
    ∀ (l : List α) (g : β), (List.foldlM f g l).isSome = true := by
  intro l
  induction l with
  | nil => intro g; rw [List.foldlM_nil]; rfl
  | cons x xs ih =>
      intro g
      rw [List.foldlM_cons]
      obtain ⟨g₁, hg₁⟩ := Option.isSome_iff_exists.mp (hf g x)
      rw [hg₁]
      exact ih g₁

/-- Unfolding a successful `rrStep`: both endpoint queries succeeded and
the result is the two overland fold passes. -/
theorem rrStep_some {dist : Nat → Nat → ℚ} {eps : List Nat} {g : DiGraph} {r : River}
    {g' : DiGraph} (h : rrStep dist eps g r = some g') :
    ∃ near1 near2,
      closest_n_points_to dist eps r.start 10 = some near1 ∧
      closest_n_points_to dist eps r.stop 10 = some near2 ∧
      g' = near2.foldl (ovAdd2 dist r.stop) (near1.foldl (ovAdd2 dist r.start) g) := by
  unfold rrStep at h
  cases h1 : closest_n_points_to dist eps r.start 10 with
  | none => rw [h1] at h; cases h
  | some near1 =>
      rw [h1] at h
      cases h2 : closest_n_points_to dist eps r.stop 10 with
      | none =>
          rw [h2] at h
          cases h
      | some near2 =>
          rw [h2] at h
          exact ⟨near1, near2, rfl, rfl, (Option.some.inj h).symm⟩

theorem rrStep_isSome {dist : Nat → Nat → ℚ} {eps : List Nat} (g : DiGraph) (r : River)
    (h : 10 ≤ eps.length) : (rrStep dist eps g r).isSome = true := by
  unfold rrStep closest_n_points_to
  simp only [if_neg (Nat.not_lt.mpr h)]
  rfl

/-- A successful query with `k` not exceeding the index size returns the
`k`-prefix of the points sorted by distance from the query point. -/
theorem closest_n_eq {dist : Nat → Nat → ℚ} {pts : List Nat} {q k : Nat}
    (h : ¬ pts.length < k) :
    closest_n_points_to dist pts q k =
      some ((List.insertionSort (distLe dist q) pts).take k) := by
  unfold closest_n_points_to
  rw [if_neg h]

/-- With `k` equal to the index size, the query returns every indexed point
(in sorted order); in particular membership transfers. -/
theorem closest_n_mem_of_full {dist : Nat → Nat → ℚ} {pts : List Nat} {q : Nat}
    {near : List Nat} (h : closest_n_points_to dist pts q 10 = some near)
    (hlen : pts.length = 10) {x : Nat} (hx : x ∈ pts) : x ∈ near := by
  rw [closest_n_eq (by rw [hlen]; exact Nat.lt_irrefl 10)] at h
  have hsorted_len : (List.insertionSort (distLe dist q) pts).length = 10 := by
    rw [List.length_insertionSort]
    exact hlen
  rw [List.take_of_length_le (by rw [hsorted_len])] at h
  have : x ∈ List.insertionSort (distLe dist q) pts := by
    rw [List.mem_insertionSort]
    exact hx
  rw [← Option.some.inj h]
  exact this

/-! ## Characterisation of the river-segment phase -/

/-- The edge list `addRiverSegments` produces for one river's point
sequence: a DOWNSTREAM/UPSTREAM pair per consecutive pair of points, both
with the same computed distance. -/
def segEdges (dist : Nat → Nat → ℚ) : List Nat → List (Nat × Nat × EdgeData)
  | a :: b :: rest =>
      (a, b, { distance := dist a b, travel_mode := .DOWNSTREAM, travel_time_in_day := none }) ::
      (b, a, { distance := dist a b, travel_mode := .UPSTREAM, travel_time_in_day := none }) ::
      segEdges dist (b :: rest)
  | _ => []

/-- The consecutive ordered pairs of a point sequence. -/
def adjPairs : List Nat → List (Nat × Nat)
  | a :: b :: rest => (a, b) :: adjPairs (b :: rest)
  | _ => []

theorem adjPairs_fst_mem : ∀ {ps : List Nat} {p : Nat × Nat}, p ∈ adjPairs ps → p.1 ∈ ps
  | a :: b :: rest, p, hp => by
      rcases List.mem_cons.mp hp with h | h
      · subst h; exact List.mem_cons_self a _
      · exact List.mem_cons_of_mem a (adjPairs_fst_mem h)
  | [], _, hp => by cases hp
  | [_], _, hp => by cases hp

theorem adjPairs_snd_mem_tail : ∀ {ps : List Nat} {p : Nat × Nat}, p ∈ adjPairs ps → p.2 ∈ ps.tail
  | a :: b :: rest, p, hp => by
      rcases List.mem_cons.mp hp with h | h
      · subst h; exact List.mem_cons_self b _
      · exact List.mem_of_mem_tail (adjPairs_snd_mem_tail h)
  | [], _, hp => by cases hp
  | [_], _, hp => by cases hp

theorem segEdges_fst_mem (dist : Nat → Nat → ℚ) :
    ∀ {ps : List Nat} {e : Nat × Nat × EdgeData}, e ∈ segEdges dist ps → e.1 ∈ ps
  | a :: b :: rest, e, he => by
      rcases List.mem_cons.mp he with h | h
      · subst h; exact List.mem_cons_self a _
      · rcases List.mem_cons.mp h with h2 | h2
        · subst h2; exact List.mem_cons_of_mem a (List.mem_cons_self b _)
        · exact List.mem_cons_of_mem a (segEdges_fst_mem dist h2)
  | [], _, he => by cases he
  | [_], _, he => by cases he

/-- A pair whose source is absent from every edge's source field is not
present. -/
theorem hasPair_false_of_fst_notMem {g : DiGraph} {u v : Nat}
    (h : ∀ e ∈ g.edges, e.1 ≠ u) : g.hasPair u v = false := by
  rw [DiGraph.hasPair_def]
  rw [List.any_eq_false]
  intro e he
  unfold epred
  simp only [Bool.and_eq_true, decide_eq_true_eq, not_and]
  intro hc
  exact absurd hc (h e he)

/-- Running `addRiverSegments` over a duplicate-free point sequence whose
adjacent pairs are absent from the graph appends exactly the segment
edges. -/
theorem addRiverSegments_edges (dist : Nat → Nat → ℚ) :
    ∀ (ps : List Nat) (g : DiGraph), ps.Nodup →
      (∀ p ∈ adjPairs ps, g.hasPair p.1 p.2 = false ∧ g.hasPair p.2 p.1 = false) →
      (addRiverSegments dist g ps).edges = g.edges ++ segEdges dist ps
  | [], g, _, _ => by simp [addRiverSegments, segEdges]
  | [x], g, _, _ => by simp [addRiverSegments, segEdges]
  | a :: b :: rest, g, hnd, hfresh => by
      have hab : (a, b) ∈ adjPairs (a :: b :: rest) := List.mem_cons_self _ _
      have hfr1 : g.hasPair a b = false ∧ g.hasPair b a = false := hfresh _ hab
      have hne : a ≠ b := by
        intro hc
        have := List.nodup_cons.mp hnd
        exact this.1 (hc ▸ List.mem_cons_self b rest)
      have h1 : ((g.add_edge a b (dist a b) .DOWNSTREAM)).edges =
          g.edges ++ [(a, b, { distance := dist a b, travel_mode := .DOWNSTREAM,
                               travel_time_in_day := none })] :=
        DiGraph.add_edge_edges_of_not_hasPair _ _ hfr1.1
      have h2has : (g.add_edge a b (dist a b) .DOWNSTREAM).hasPair b a = false := by
        rw [DiGraph.hasPair_def, h1, List.any_append]
        rw [show g.edges.any (epred b a) = false from hfr1.2]
        have : epred b a ((a, b,
            ({ distance := dist a b, travel_mode := .DOWNSTREAM,
               travel_time_in_day := none } : EdgeData))) = false := by
          unfold epred
          simp [hne]
        simp [List.any_cons, this]
      have h2 : ((g.add_edge a b (dist a b) .DOWNSTREAM).add_edge b a (dist a b) .UPSTREAM).edges =
          g.edges ++
            [(a, b, { distance := dist a b, travel_mode := .DOWNSTREAM, travel_time_in_day := none })] ++
            [(b, a, { distance := dist a b, travel_mode := .UPSTREAM, travel_time_in_day := none })] := by
        rw [DiGraph.add_edge_edges_of_not_hasPair _ _ h2has, h1]
      have htail : ∀ p ∈ adjPairs (b :: rest),
          ((g.add_edge a b (dist a b) .DOWNSTREAM).add_edge b a (dist a b) .UPSTREAM).hasPair p.1 p.2 = false ∧
          ((g.add_edge a b (dist a b) .DOWNSTREAM).add_edge b a (dist a b) .UPSTREAM).hasPair p.2 p.1 = false := by
        intro p hp
        have hp' : p ∈ adjPairs (a :: b :: rest) := List.mem_cons_of_mem _ hp
        have hfr := hfresh _ hp'
        have hp1 : p.1 ∈ b :: rest := adjPairs_fst_mem hp
        have hp2 : p.2 ∈ rest := adjPairs_snd_mem_tail hp
        have hna : a ∉ b :: rest := (List.nodup_cons.mp hnd).1
        have hp1a : p.1 ≠ a := fun hc => hna (hc ▸ hp1)
        have hp2a : p.2 ≠ a := fun hc => hna (hc ▸ List.mem_cons_of_mem b hp2)
        have hndtail : (b :: rest).Nodup := (List.nodup_cons.mp hnd).2
        have hnb : b ∉ rest := (List.nodup_cons.mp hndtail).1
        have hp2b : p.2 ≠ b := fun hc => hnb (hc ▸ hp2)
        constructor
        · rw [DiGraph.hasPair_def, h2, List.any_append, List.any_append]
          rw [DiGraph.hasPair_def] at hfr
          rw [hfr.1]
          have e1 : epred p.1 p.2 ((a, b,
              ({ distance := dist a b, travel_mode := .DOWNSTREAM,
                 travel_time_in_day := none } : EdgeData))) = false := by
            unfold epred
            have hx : ¬ (a = p.1) := fun hc => hp1a hc.symm
            simp [hx]
          have e2 : epred p.1 p.2 ((b, a,
              ({ distance := dist a b, travel_mode := .UPSTREAM,
                 travel_time_in_day := none } : EdgeData))) = false := by
            unfold epred
            have hx : ¬ (a = p.2) := fun hc => hp2a hc.symm
            simp [hx]
          simp [List.any_cons, e1, e2]
        · rw [DiGraph.hasPair_def, h2, List.any_append, List.any_append]
          rw [show g.edges.any (epred p.2 p.1) = false from hfr.2]
          have e1 : epred p.2 p.1 ((a, b,
              ({ distance := dist a b, travel_mode := .DOWNSTREAM,
                 travel_time_in_day := none } : EdgeData))) = false := by
            unfold epred
            have hx : ¬ (a = p.2) := fun hc => hp2a hc.symm
            simp [hx]
          have e2 : epred p.2 p.1 ((b, a,
              ({ distance := dist a b, travel_mode := .UPSTREAM,
                 travel_time_in_day := none } : EdgeData))) = false := by
            unfold epred
            have hx : ¬ (b = p.2) := fun hc => hp2b hc.symm
            simp [hx]
          simp [List.any_cons, e1, e2]
      have ih := addRiverSegments_edges dist (b :: rest)
        ((g.add_edge a b (dist a b) .DOWNSTREAM).add_edge b a (dist a b) .UPSTREAM)
        (List.nodup_cons.mp hnd).2 htail
      show (addRiverSegments dist
          ((g.add_edge a b (dist a b) .DOWNSTREAM).add_edge b a (dist a b) .UPSTREAM)
          (b :: rest)).edges = _
      rw [ih, h2]
      simp [segEdges, List.append_assoc]

/-- All river points of a river collection, in order. -/
def allPts : List River → List Nat
  | [] => []
  | r :: rest => r.points_in_direction_of_water_flow ++ allPts rest

/-- The concatenated segment edges of a river collection. -/
def segsAll (dist : Nat → Nat → ℚ) : List River → List (Nat × Nat × EdgeData)
  | [] => []
  | r :: rest => segEdges dist r.points_in_direction_of_water_flow ++ segsAll dist rest

/-- The river-segment phase on a duplicate-free world appends exactly the
segment edges of every river (nothing is overwritten within this phase). -/
theorem build_waypoints_from_rivers_edges (dist : Nat → Nat → ℚ) :
    ∀ (rivers : List River) (g : DiGraph), (allPts rivers).Nodup →
      (∀ e ∈ g.edges, e.1 ∉ allPts rivers) →
      (build_waypoints_from_rivers dist rivers g).edges = g.edges ++ segsAll dist rivers
  | [], g, _, _ => by simp [build_waypoints_from_rivers, segsAll]
  | r :: rest, g, hnd, havoid => by
      have hnd' := hnd
      rw [show allPts (r :: rest) = r.points_in_direction_of_water_flow ++ allPts rest from rfl,
        List.nodup_append] at hnd'
      obtain ⟨hndr, hndrest, hdisj⟩ := hnd'
      have hfresh : ∀ p ∈ adjPairs r.points_in_direction_of_water_flow,
          (g.add_nodes r.points_in_direction_of_water_flow).hasPair p.1 p.2 = false ∧
          (g.add_nodes r.points_in_direction_of_water_flow).hasPair p.2 p.1 = false := by
        intro p hp
        have hp1 : p.1 ∈ r.points_in_direction_of_water_flow := adjPairs_fst_mem hp
        have hp2 : p.2 ∈ r.points_in_direction_of_water_flow :=
          List.mem_of_mem_tail (adjPairs_snd_mem_tail hp)
        constructor
        · apply hasPair_false_of_fst_notMem
          intro e he hc
          rw [DiGraph.add_nodes_edges] at he
          exact havoid e he (hc ▸ List.mem_append_left _ hp1)
        · apply hasPair_false_of_fst_notMem
          intro e he hc
          rw [DiGraph.add_nodes_edges] at he
          exact havoid e he (hc ▸ List.mem_append_left _ hp2)
      have hstep := addRiverSegments_edges dist r.points_in_direction_of_water_flow
        (g.add_nodes r.points_in_direction_of_water_flow) hndr hfresh
      rw [DiGraph.add_nodes_edges] at hstep
      have havoid' : ∀ e ∈ (addRiverSegments dist
          (g.add_nodes r.points_in_direction_of_water_flow)
          r.points_in_direction_of_water_flow).edges, e.1 ∉ allPts rest := by
        intro e he
        rw [hstep] at he
        rcases List.mem_append.mp he with h | h
        · intro hc
          exact havoid e h (List.mem_append_right _ hc)
        · intro hc
          exact hdisj (segEdges_fst_mem dist h) hc
      have ih := build_waypoints_from_rivers_edges dist rest
        (addRiverSegments dist (g.add_nodes r.points_in_direction_of_water_flow)
          r.points_in_direction_of_water_flow) hndrest havoid'
      show (build_waypoints_from_rivers dist rest _).edges = _
      rw [ih, hstep]
      simp [segsAll, List.append_assoc]

/-- DOWNSTREAM edges in one river's segment list: one per consecutive
pair. -/
theorem segEdges_count_down (dist : Nat → Nat → ℚ) :
    ∀ ps : List Nat,
      ((segEdges dist ps).filter (fun e => e.2.2.travel_mode = TravelMode.DOWNSTREAM)).length =
        ps.length - 1
  | [] => rfl
  | [x] => rfl
  | a :: b :: rest => by
      have ih := segEdges_count_down dist (b :: rest)
      show ((segEdges dist (a :: b :: rest)).filter
        (fun e => e.2.2.travel_mode = TravelMode.DOWNSTREAM)).length = _
      rw [show segEdges dist (a :: b :: rest) =
        (a, b, ({ distance := dist a b, travel_mode := .DOWNSTREAM,
                  travel_time_in_day := none } : EdgeData)) ::
        (b, a, ({ distance := dist a b, travel_mode := .UPSTREAM,
                  travel_time_in_day := none } : EdgeData)) ::
        segEdges dist (b :: rest) from rfl]
      rw [List.filter_cons_of_pos (by simp), List.filter_cons_of_neg (by simp)]
      rw [List.length_cons, ih]
      show (b :: rest).length - 1 + 1 = (a :: b :: rest).length - 1
      simp [List.length_cons]

/-- UPSTREAM edges in one river's segment list: one per consecutive pair. -/
theorem segEdges_count_up (dist : Nat → Nat → ℚ) :
    ∀ ps : List Nat,
      ((segEdges dist ps).filter (fun e => e.2.2.travel_mode = TravelMode.UPSTREAM)).length =
        ps.length - 1
  | [] => rfl
  | [x] => rfl
  | a :: b :: rest => by
      have ih := segEdges_count_up dist (b :: rest)
      show ((segEdges dist (a :: b :: rest)).filter
        (fun e => e.2.2.travel_mode = TravelMode.UPSTREAM)).length = _
      rw [show segEdges dist (a :: b :: rest) =
        (a, b, ({ distance := dist a b, travel_mode := .DOWNSTREAM,
                  travel_time_in_day := none } : EdgeData)) ::
        (b, a, ({ distance := dist a b, travel_mode := .UPSTREAM,
                  travel_time_in_day := none } : EdgeData)) ::
        segEdges dist (b :: rest) from rfl]
      rw [List.filter_cons_of_neg (by simp), List.filter_cons_of_pos (by simp)]
      rw [List.length_cons, ih]
      show (b :: rest).length - 1 + 1 = (a :: b :: rest).length - 1
      simp [List.length_cons]

theorem segsAll_count_down (dist : Nat → Nat → ℚ) :
    ∀ rivers : List River,
      ((segsAll dist rivers).filter (fun e => e.2.2.travel_mode = TravelMode.DOWNSTREAM)).length =
        rivers.foldr (fun r acc => (r.points_in_direction_of_water_flow.length - 1) + acc) 0
  | [] => rfl
  | r :: rest => by
      show ((segEdges dist r.points_in_direction_of_water_flow ++ segsAll dist rest).filter
        (fun e => e.2.2.travel_mode = TravelMode.DOWNSTREAM)).length = _
      rw [List.filter_append, List.length_append, segEdges_count_down,
        segsAll_count_down dist rest]
      rfl

theorem segsAll_count_up (dist : Nat → Nat → ℚ) :
    ∀ rivers : List River,
      ((segsAll dist rivers).filter (fun e => e.2.2.travel_mode = TravelMode.UPSTREAM)).length =
        rivers.foldr (fun r acc => (r.points_in_direction_of_water_flow.length - 1) + acc) 0
  | [] => rfl
  | r :: rest => by
      show ((segEdges dist r.points_in_direction_of_water_flow ++ segsAll dist rest).filter
        (fun e => e.2.2.travel_mode = TravelMode.UPSTREAM)).length = _
      rw [List.filter_append, List.length_append, segEdges_count_up,
        segsAll_count_up dist rest]
      rfl

theorem segEdges_cons (dist : Nat → Nat → ℚ) (a b : Nat) (rest : List Nat) :
    segEdges dist (a :: b :: rest) =
      (a, b, { distance := dist a b, travel_mode := .DOWNSTREAM, travel_time_in_day := none }) ::
      (b, a, { distance := dist a b, travel_mode := .UPSTREAM, travel_time_in_day := none }) ::
      segEdges dist (b :: rest) := rfl

theorem segEdges_find_down (dist : Nat → Nat → ℚ) :
    ∀ ps : List Nat, ps.Nodup → ∀ a b : Nat, (a, b) ∈ adjPairs ps →
      (segEdges dist ps).find? (epred a b) =
        some (a, b, { distance := dist a b, travel_mode := .DOWNSTREAM,
                      travel_time_in_day := none })
  | [], _, a, b, hp => by cases hp
  | [x], _, a, b, hp => by cases hp
  | x :: y :: rest, hnd, a, b, hp => by
      have hxny : x ∉ y :: rest := (List.nodup_cons.mp hnd).1
      rcases List.mem_cons.mp hp with h | h
      · rw [Prod.mk.injEq] at h
        obtain ⟨ha, hb⟩ := h
        subst ha
        subst hb
        rw [segEdges_cons, List.find?_cons_of_pos _ (epred_self a b _ _ _)]
      · have ha : a ∈ y :: rest := adjPairs_fst_mem h
        have hb : b ∈ rest := adjPairs_snd_mem_tail h
        have hxa : ¬ (x = a) := fun hc => hxny (hc ▸ ha)
        have hxb : ¬ (x = b) := fun hc => hxny (hc ▸ List.mem_cons_of_mem y hb)
        rw [segEdges_cons,
          List.find?_cons_of_neg _ (by unfold epred; simp [hxa]),
          List.find?_cons_of_neg _ (by unfold epred; simp [hxb]),
          segEdges_find_down dist (y :: rest) (List.nodup_cons.mp hnd).2 a b h]

theorem segEdges_find_up (dist : Nat → Nat → ℚ) :
    ∀ ps : List Nat, ps.Nodup → ∀ a b : Nat, (a, b) ∈ adjPairs ps →
      (segEdges dist ps).find? (epred b a) =
        some (b, a, { distance := dist a b, travel_mode := .UPSTREAM,
                      travel_time_in_day := none })
  | [], _, a, b, hp => by cases hp
  | [x], _, a, b, hp => by cases hp
  | x :: y :: rest, hnd, a, b, hp => by
      have hxny : x ∉ y :: rest := (List.nodup_cons.mp hnd).1
      rcases List.mem_cons.mp hp with h | h
      · rw [Prod.mk.injEq] at h
        obtain ⟨ha, hb⟩ := h
        subst ha
        subst hb
        have hne : ¬ (a = b) := fun hc => hxny (hc ▸ List.mem_cons_self b rest)
        rw [segEdges_cons,
          List.find?_cons_of_neg _ (by unfold epred; simp [hne]),
          List.find?_cons_of_pos _ (epred_self b a _ _ _)]
      · have ha : a ∈ y :: rest := adjPairs_fst_mem h
        have hb : b ∈ rest := adjPairs_snd_mem_tail h
        have hxa : ¬ (x = a) := fun hc => hxny (hc ▸ ha)
        have hxb : ¬ (x = b) := fun hc => hxny (hc ▸ List.mem_cons_of_mem y hb)
        rw [segEdges_cons,
          List.find?_cons_of_neg _ (by unfold epred; simp [hxb]),
          List.find?_cons_of_neg _ (by unfold epred; simp [hxa]),
          segEdges_find_up dist (y :: rest) (List.nodup_cons.mp hnd).2 a b h]

theorem mem_allPts {rivers : List River} {r : River} (hr : r ∈ rivers) {x : Nat}
    (hx : x ∈ r.points_in_direction_of_water_flow) : x ∈ allPts rivers := by
  induction rivers with
  | nil => cases hr
  | cons r' rest ih =>
      rcases List.mem_cons.mp hr with h | h
      · subst h
        exact List.mem_append_left _ hx
      · exact List.mem_append_right _ (ih h)

theorem segsAll_find_down (dist : Nat → Nat → ℚ) :
    ∀ rivers : List River, (allPts rivers).Nodup → ∀ r ∈ rivers,
      ∀ a b : Nat, (a, b) ∈ adjPairs r.points_in_direction_of_water_flow →
      (segsAll dist rivers).find? (epred a b) =
        some (a, b, { distance := dist a b, travel_mode := .DOWNSTREAM,
                      travel_time_in_day := none }) ∧
      (segsAll dist rivers).find? (epred b a) =
        some (b, a, { distance := dist a b, travel_mode := .UPSTREAM,
                      travel_time_in_day := none })
  | [], _, r, hr, _, _, _ => by cases hr
  | r' :: rest, hnd, r, hr, a, b, hp => by
      have hnd' := hnd
      rw [show allPts (r' :: rest) = r'.points_in_direction_of_water_flow ++ allPts rest
        from rfl, List.nodup_append] at hnd'
      obtain ⟨hndr, hndrest, hdisj⟩ := hnd'
      have hseg : segsAll dist (r' :: rest) =
          segEdges dist r'.points_in_direction_of_water_flow ++ segsAll dist rest := rfl
      rcases List.mem_cons.mp hr with h | h
      · subst h
        have h1 := segEdges_find_down dist _ hndr a b hp
        have h2 := segEdges_find_up dist _ hndr a b hp
        rw [hseg, List.find?_append, List.find?_append, h1, h2]
        exact ⟨rfl, rfl⟩
      · have ha : a ∈ allPts rest :=
          mem_allPts h (adjPairs_fst_mem hp)
        have hb : b ∈ allPts rest :=
          mem_allPts h (List.mem_of_mem_tail (adjPairs_snd_mem_tail hp))
        have hnone1 : (segEdges dist r'.points_in_direction_of_water_flow).find? (epred a b) = none := by
          rw [List.find?_eq_none]
          intro e he hc
          have hfst : e.1 ∈ r'.points_in_direction_of_water_flow := segEdges_fst_mem dist he
          unfold epred at hc
          simp only [Bool.and_eq_true, decide_eq_true_eq] at hc
          exact hdisj (hc.1 ▸ hfst) ha
        have hnone2 : (segEdges dist r'.points_in_direction_of_water_flow).find? (epred b a) = none := by
          rw [List.find?_eq_none]
          intro e he hc
          have hfst : e.1 ∈ r'.points_in_direction_of_water_flow := segEdges_fst_mem dist he
          unfold epred at hc
          simp only [Bool.and_eq_true, decide_eq_true_eq] at hc
          exact hdisj (hc.1 ▸ hfst) hb
        have ih := segsAll_find_down dist rest hndrest r h a b hp
        rw [hseg, List.find?_append, List.find?_append, hnone1, hnone2]
        exact ⟨by rw [Option.none_or]; exact ih.1, by rw [Option.none_or]; exact ih.2⟩

theorem DiGraph.countMode_def (g : DiGraph) (m : TravelMode) :
    g.countMode m = (g.edges.filter (fun e => e.2.2.travel_mode = m)).length := rfl

/-- The river-segment phase run from the empty graph (the state of the
graph inside `create_from` after `_build_waypoints_from_rivers` when the
world has no cities). -/
def riverPhase (dist : Nat → Nat → ℚ) (rivers : List River) : DiGraph :=
  build_waypoints_from_rivers dist rivers DiGraph.empty

theorem riverPhase_edges (dist : Nat → Nat → ℚ) (rivers : List River)
    (hnd : (allPts rivers).Nodup) :
    (riverPhase dist rivers).edges = segsAll dist rivers := by
  have h := build_waypoints_from_rivers_edges dist rivers DiGraph.empty hnd
    (by intro e he; cases he)
  unfold riverPhase
  rw [h]
  rfl

/-! ## A concrete world exercising the construction pipeline -/

/-- A concrete metric for counterexample worlds: node `i` sits at
coordinate `i` along a line (for small offsets the haversine distance is
proportional to the coordinate difference, so this is the distance profile
of ten points spaced along a meridian). -/
def lineDist (i j : Nat) : ℚ := ((max i j - min i j : Nat) : ℚ)

theorem lineDist_symm (x y : Nat) : lineDist x y = lineDist y x := by
  unfold lineDist
  rw [Nat.max_comm, Nat.min_comm]

theorem lineDist_01 : lineDist 0 1 = 1 := by decide

/-- First river of the concrete world `W6`: two points `0 → 1`. -/
def W6r0 : River :=
  { name := some "r0", points_in_direction_of_water_flow := [0, 1], start := 0, stop := 1 }

/-- Second river of `W6`: `2 → 3`. -/
def W6r1 : River :=
  { name := some "r1", points_in_direction_of_water_flow := [2, 3], start := 2, stop := 3 }

/-- Third river of `W6`: `4 → 5`. -/
def W6r2 : River :=
  { name := some "r2", points_in_direction_of_water_flow := [4, 5], start := 4, stop := 5 }

/-- Fourth river of `W6`: `6 → 7`. -/
def W6r3 : River :=
  { name := some "r3", points_in_direction_of_water_flow := [6, 7], start := 6, stop := 7 }

/-- Fifth river of `W6`: `8 → 9`. -/
def W6r4 : River :=
  { name := some "r4", points_in_direction_of_water_flow := [8, 9], start := 8, stop := 9 }

/-- The rivers of `W6`: five two-point rivers, supplying the ten river
endpoints the `k = 10` endpoint queries need. -/
def W6rivers : List River := [W6r0, W6r1, W6r2, W6r3, W6r4]

/-- A concrete world with no cities and five two-point rivers: the
smallest world on which every phase of `WaypointGraph.create_from`
completes (fewer rivers would make the `k = 10` endpoint query raise). -/
def W6 : WorldGeography := { cities := [], rivers := W6rivers, dist := lineDist }

/-- The river-endpoint index contents for `W6`: all ten points. -/
def eps6 : List Nat := river_endpoints W6rivers

theorem eps6_len : eps6.length = 10 := by decide

theorem W6_nodup : (allPts W6rivers).Nodup := by decide

/-- Immediately after the river-segment phase, `W6`'s first river has its
DOWNSTREAM edge `0 → 1`. -/
theorem W6_edge01_down :
    (riverPhase lineDist W6rivers).edgeModeDist 0 1 = some (1, TravelMode.DOWNSTREAM) := by
  have h := (segsAll_find_down lineDist W6rivers W6_nodup W6r0 (by decide) 0 1 (by decide)).1
  unfold DiGraph.edgeModeDist
  rw [DiGraph.edgeData_def, riverPhase_edges lineDist W6rivers W6_nodup, h]
  rw [lineDist_01]
  rfl

/-- Immediately after the river-segment phase, the ordered pair `(0, 1)`
carries exactly one edge. -/
theorem W6_pair01 : (riverPhase lineDist W6rivers).pairCount 0 1 = 1 := by
  rw [DiGraph.pairCount_def, riverPhase_edges lineDist W6rivers W6_nodup]
  decide

/-- Immediately after the river-segment phase, `W6` has five DOWNSTREAM
edges — one per river. -/
theorem W6_count_down : (riverPhase lineDist W6rivers).countMode TravelMode.DOWNSTREAM = 5 := by
  rw [DiGraph.countMode_def, riverPhase_edges lineDist W6rivers W6_nodup]
  decide

/-! ## Tracking the pair `(0, 1)` through the later phases of `W6` -/

/-- Invariant: the ordered pair `(0, 1)` carries exactly one edge.  Every
`add_edge` preserves it, because a present pair is updated in place. -/
theorem pair01_add_edge (g : DiGraph) (u v : Nat) (d : ℚ) (m : TravelMode)
    (h : g.pairCount 0 1 = 1) : (g.add_edge u v d m).pairCount 0 1 = 1 := by
  by_cases hp : u = 0 ∧ v = 1
  · obtain ⟨hu, hv⟩ := hp
    subst hu
    subst hv
    rw [DiGraph.pairCount_add_edge_self, h]
    simp
  · rw [DiGraph.pairCount_add_edge_ne g d m hp, h]

theorem pair01_ovAdd2 (dist : Nat → Nat → ℚ) (c : Nat) (g : DiGraph) (o : Nat)
    (h : g.pairCount 0 1 = 1) : (ovAdd2 dist c g o).pairCount 0 1 = 1 := by
  unfold ovAdd2
  exact pair01_add_edge _ _ _ _ _ (pair01_add_edge _ _ _ _ _ h)

/-- Invariant: the `(0, 1)` edge is OVERLAND with distance `lineDist 0 1`.
Any overland connection step preserves it, because a step that touches
`(0, 1)` rewrites it with exactly these attributes. -/
theorem edge01_ovAdd2 (c : Nat) (g : DiGraph) (o : Nat)
    (h : g.edgeModeDist 0 1 = some (1, TravelMode.OVERLAND)) :
    (ovAdd2 lineDist c g o).edgeModeDist 0 1 = some (1, TravelMode.OVERLAND) := by
  unfold ovAdd2
  by_cases h1 : c = 0 ∧ o = 1
  · obtain ⟨hc, ho⟩ := h1
    subst hc
    subst ho
    rw [DiGraph.edgeModeDist_add_edge_ne _ _ _ (by intro hc; exact absurd hc.1 one_ne_zero),
      DiGraph.edgeModeDist_add_edge_self, lineDist_01]
  · by_cases h2 : o = 0 ∧ c = 1
    · obtain ⟨ho, hc⟩ := h2
      subst hc
      subst ho
      rw [DiGraph.edgeModeDist_add_edge_self]
      rw [show lineDist 1 0 = 1 from by rw [lineDist_symm, lineDist_01]]
    · rw [DiGraph.edgeModeDist_add_edge_ne _ _ _ h2,
        DiGraph.edgeModeDist_add_edge_ne _ _ _ h1, h]

/-- An overland connection step centred at `0` that reaches `1`
establishes the OVERLAND overwrite of the `(0, 1)` edge. -/
theorem edge01_ovAdd2_set (g : DiGraph) :
    (ovAdd2 lineDist 0 g 1).edgeModeDist 0 1 = some (1, TravelMode.OVERLAND) := by
  unfold ovAdd2
  rw [DiGraph.edgeModeDist_add_edge_ne _ _ _ (by intro hc; exact absurd hc.1 one_ne_zero),
    DiGraph.edgeModeDist_add_edge_self, lineDist_01]

theorem rrStep_preserve_pair01 {eps : List Nat} {g g' : DiGraph} {r : River}
    (h : rrStep lineDist eps g r = some g') (hg : g.pairCount 0 1 = 1) :
    g'.pairCount 0 1 = 1 := by
  obtain ⟨near1, near2, _, _, heq⟩ := rrStep_some h
  subst heq
  exact foldl_preserve _ _ (fun g o hg => pair01_ovAdd2 lineDist r.stop g o hg) near2 _
    (foldl_preserve _ _ (fun g o hg => pair01_ovAdd2 lineDist r.start g o hg) near1 _ hg)

theorem rrStep_preserve_edge01 {eps : List Nat} {g g' : DiGraph} {r : River}
    (h : rrStep lineDist eps g r = some g')
    (hg : g.edgeModeDist 0 1 = some (1, TravelMode.OVERLAND)) :
    g'.edgeModeDist 0 1 = some (1, TravelMode.OVERLAND) := by
  obtain ⟨near1, near2, _, _, heq⟩ := rrStep_some h
  subst heq
  exact foldl_preserve _ _ (fun g o hg => edge01_ovAdd2 r.stop g o hg) near2 _
    (foldl_preserve _ _ (fun g o hg => edge01_ovAdd2 r.start g o hg) near1 _ hg)

/-- The first river of `W6` (whose `start` is node `0`) overwrites its own
DOWNSTREAM segment edge `0 → 1` with an OVERLAND edge: node `1` is among
the ten nearest endpoints to node `0` because the endpoint index holds
exactly ten points. -/
theorem rrStep_W6r0_sets_edge01 {g g' : DiGraph}
    (h : rrStep lineDist eps6 g W6r0 = some g') :
    g'.edgeModeDist 0 1 = some (1, TravelMode.OVERLAND) := by
  obtain ⟨near1, near2, h1, _, heq⟩ := rrStep_some h
  subst heq
  have hmem : (1 : Nat) ∈ near1 := by
    have : W6r0.start = 0 := rfl
    rw [this] at h1
    exact closest_n_mem_of_full h1 eps6_len (by decide)
  apply foldl_preserve _ _ (fun g o hg => edge01_ovAdd2 W6r0.stop g o hg) near2
  exact foldl_establish _ _ (fun g o hg => edge01_ovAdd2 W6r0.start g o hg) 1
    (fun g => edge01_ovAdd2_set g) near1 _ hmem

/-- After the whole river–river phase of `W6`, the `(0, 1)` edge is the
single OVERLAND edge that overwrote the DOWNSTREAM river segment. -/
theorem W6_rr_phase_final {g' : DiGraph}
    (h : add_river_to_river_connections lineDist eps6 W6rivers (riverPhase lineDist W6rivers) = some g') :
    g'.edgeModeDist 0 1 = some (1, TravelMode.OVERLAND) ∧ g'.pairCount 0 1 = 1 := by
  unfold add_river_to_river_connections at h
  rw [show W6rivers = W6r0 :: [W6r1, W6r2, W6r3, W6r4] from rfl] at h
  obtain ⟨g₁, hstep, hrest⟩ := foldlM_option_cons_some h
  have h01 : g₁.edgeModeDist 0 1 = some (1, TravelMode.OVERLAND) :=
    rrStep_W6r0_sets_edge01 hstep
  have hp01 : g₁.pairCount 0 1 = 1 :=
    rrStep_preserve_pair01 hstep W6_pair01
  constructor
  · exact foldlM_option_preserve _ _
      (fun g r g' hs hg => rrStep_preserve_edge01 hs hg) _ g₁ g' hrest h01
  · exact foldlM_option_preserve _ _
      (fun g r g' hs hg => rrStep_preserve_pair01 hs hg) _ g₁ g' hrest hp01

set_option maxRecDepth 100000

/-- With no cities, the first two phases of `create_from` contribute no
edges and no failure, so the built graph is the river–river phase applied
to the river-segment graph, followed by the (vacuous) city–river phase. -/
theorem create_from_graph_no_cities (rivers : List River) (dist : Nat → Nat → ℚ) :
    create_from_graph { cities := [], rivers := rivers, dist := dist } =
      (add_river_to_river_connections dist (river_endpoints rivers) rivers
        (build_waypoints_from_rivers dist rivers DiGraph.empty)).bind
        (add_city_river_connections dist [] rivers) := rfl

theorem W6_create_decomp :
    create_from_graph W6 =
      (add_river_to_river_connections lineDist eps6 W6rivers (riverPhase lineDist W6rivers)).bind
        (add_city_river_connections lineDist [] W6rivers) := by
  have h := create_from_graph_no_cities W6rivers lineDist
  rw [show W6 = { cities := [], rivers := W6rivers, dist := lineDist } from rfl, h]
  rfl

theorem W6_rr_isSome :
    (add_river_to_river_connections lineDist eps6 W6rivers
      (riverPhase lineDist W6rivers)).isSome = true := by
  unfold add_river_to_river_connections
  exact foldlM_option_isSome _ (fun g r => rrStep_isSome g r (by decide)) _ _

/-- The construction pipeline on `W6` completes, and in its final graph the
ordered pair `(0, 1)` carries exactly one edge: an OVERLAND edge that
replaced the DOWNSTREAM river segment. -/
theorem W6_final_facts :
    ∃ g', create_from_graph W6 = some g' ∧
      g'.edgeModeDist 0 1 = some (1, TravelMode.OVERLAND) ∧ g'.pairCount 0 1 = 1 := by
  obtain ⟨g5, hg5⟩ := Option.isSome_iff_exists.mp W6_rr_isSome
  refine ⟨g5, ?_, W6_rr_phase_final hg5⟩
  rw [W6_create_decomp, hg5]
  rfl

/-- The `(distance, travel mode)` of the `(u, v)` edge in the graph
`create_from` builds for a world (`none` when construction raises). -/
def finalEdgeModeDist (W : WorldGeography) (u v : Nat) : Option (Option (ℚ × TravelMode)) :=
  (create_from_graph W).map (fun g => g.edgeModeDist u v)

/-- The number of `(u, v)` edges in the graph `create_from` builds for a
world (`none` when construction raises). -/
def finalPairCount (W : WorldGeography) (u v : Nat) : Option Nat :=
  (create_from_graph W).map (fun g => g.pairCount u v)

/-! ## Claim theorems -/

/-- C2: the claim says `WaypointGraph.create_from` returns a Graph value
and does not return nothing; on the concrete world `W6` every construction
phase succeeds, yet the method returns Python `None` (the inner `none`),
because its body has no `return` statement — the code contradicts its own
`-> "WaypointGraph"` annotation and the spec's `buildWaypointGraph
(geography) -> Graph` interface. -/
theorem C2_create_from_returns_none : WaypointGraph.create_from W6 = some none := by
  obtain ⟨g5, hg5, _, _⟩ := W6_final_facts
  unfold WaypointGraph.create_from
  rw [hg5]
  rfl

/-- C3 (counterexample): the claim says the waypoint graph is a directed
multigraph in which no add-edge operation of any construction phase
overwrites a previously added edge between the same ordered pair.  On the
concrete world `W6`, after the river-segment phase the ordered pair
`(0, 1)` carries the DOWNSTREAM river-segment edge, but in the final graph
built by `create_from` the same pair carries exactly one edge and it is
OVERLAND: the river–river phase overwrote the river segment, and no
parallel edges coexist. -/
theorem C3_not_multigraph_counterexample :
    (riverPhase lineDist W6rivers).edgeModeDist 0 1 = some (1, TravelMode.DOWNSTREAM) ∧
    finalEdgeModeDist W6 0 1 = some (some (1, TravelMode.OVERLAND)) ∧
    finalPairCount W6 0 1 = some 1 := by
  obtain ⟨g5, hg5, he, hp⟩ := W6_final_facts
  refine ⟨W6_edge01_down, ?_, ?_⟩
  · unfold finalEdgeModeDist
    rw [hg5]
    show some (g5.edgeModeDist 0 1) = some (some (1, TravelMode.OVERLAND))
    rw [he]
  · unfold finalPairCount
    rw [hg5]
    show some (g5.pairCount 0 1) = some 1
    rw [hp]

/-- C3 (amended): the waypoint graph is a `networkx.DiGraph` — a simple
directed graph, not a multigraph.  For every graph and ordered pair,
`add_edge` leaves the pair with exactly one edge carrying the new distance
and travel mode (a fresh pair gains its single edge; a present pair is
overwritten in place), and every other ordered pair is untouched. -/
theorem C3_simple_digraph_amended (g : DiGraph) (u v : Nat) (d : ℚ) (m : TravelMode) :
    (g.add_edge u v d m).edgeModeDist u v = some (d, m) ∧
    (g.add_edge u v d m).pairCount u v = max 1 (g.pairCount u v) ∧
    ∀ a b : Nat, ¬(u = a ∧ v = b) →
      (g.add_edge u v d m).edgeData a b = g.edgeData a b :=
  ⟨DiGraph.edgeModeDist_add_edge_self g u v d m,
   DiGraph.pairCount_add_edge_self g u v d m,
   fun _ _ h => DiGraph.edgeData_add_edge_ne g d m h⟩

/-- Witness for the amended C3 at a concrete graph: a second `add_edge` on
the pair `(0, 1)` overwrites the DOWNSTREAM edge with an OVERLAND one,
keeps the pair count at one, and leaves the pair `(0, 2)` alone. -/
theorem C3_simple_digraph_amended_witness :
    ((DiGraph.empty.add_edge 0 1 2 .DOWNSTREAM).add_edge 0 1 5 .OVERLAND).edgeModeDist 0 1 =
        some (5, TravelMode.OVERLAND) ∧
    ((DiGraph.empty.add_edge 0 1 2 .DOWNSTREAM).add_edge 0 1 5 .OVERLAND).pairCount 0 1 =
        max 1 ((DiGraph.empty.add_edge 0 1 2 .DOWNSTREAM).pairCount 0 1) ∧
    ¬((0 : Nat) = 0 ∧ (1 : Nat) = 2) ∧
    ((DiGraph.empty.add_edge 0 1 2 .DOWNSTREAM).add_edge 0 1 5 .OVERLAND).edgeData 0 2 =
        (DiGraph.empty.add_edge 0 1 2 .DOWNSTREAM).edgeData 0 2 := by
  have h := C3_simple_digraph_amended (DiGraph.empty.add_edge 0 1 2 .DOWNSTREAM) 0 1 5 .OVERLAND
  exact ⟨h.1, h.2.1, by decide, h.2.2 0 2 (by decide)⟩

/-- C6 (counterexample): the claim says each river's DOWNSTREAM/UPSTREAM
segment edges are still present in the final graph after all later
construction phases.  On `W6` the river-segment phase creates five
DOWNSTREAM edges, among them the segment `0 → 1` of the first river; but
in the final graph built by `create_from` the ordered pair `(0, 1)`
carries exactly one edge and its mode is OVERLAND — the DOWNSTREAM segment
edge did not survive the river–river phase. -/
theorem C6_segments_not_persistent_counterexample :
    (riverPhase lineDist W6rivers).countMode TravelMode.DOWNSTREAM = 5 ∧
    (riverPhase lineDist W6rivers).edgeModeDist 0 1 = some (1, TravelMode.DOWNSTREAM) ∧
    finalEdgeModeDist W6 0 1 = some (some (1, TravelMode.OVERLAND)) ∧
    finalPairCount W6 0 1 = some 1 := by
  obtain ⟨g5, hg5, he, hp⟩ := W6_final_facts
  refine ⟨W6_count_down, W6_edge01_down, ?_, ?_⟩
  · unfold finalEdgeModeDist
    rw [hg5]
    show some (g5.edgeModeDist 0 1) = some (some (1, TravelMode.OVERLAND))
    rw [he]
  · unfold finalPairCount
    rw [hg5]
    show some (g5.pairCount 0 1) = some 1
    rw [hp]

/-- C6 (amended): immediately after the river-segment phase, a
duplicate-free world has exactly `n − 1` DOWNSTREAM and `n − 1` UPSTREAM
edges per river (one pair per consecutive points in flow order), and for
every consecutive pair the DOWNSTREAM edge and the reverse UPSTREAM edge
carry the same distance.  (Persistence into the final graph fails: a later
phase may overwrite a segment edge between two river endpoints, as the
counterexample shows.) -/
theorem C6_river_segments_amended (dist : Nat → Nat → ℚ) (rivers : List River)
    (hnd : (allPts rivers).Nodup) :
    (riverPhase dist rivers).countMode TravelMode.DOWNSTREAM =
      rivers.foldr (fun r acc => (r.points_in_direction_of_water_flow.length - 1) + acc) 0 ∧
    (riverPhase dist rivers).countMode TravelMode.UPSTREAM =
      rivers.foldr (fun r acc => (r.points_in_direction_of_water_flow.length - 1) + acc) 0 ∧
    ∀ r ∈ rivers, ∀ a b : Nat, (a, b) ∈ adjPairs r.points_in_direction_of_water_flow →
      (riverPhase dist rivers).edgeData a b =
        some { distance := dist a b, travel_mode := .DOWNSTREAM, travel_time_in_day := none } ∧
      (riverPhase dist rivers).edgeData b a =
        some { distance := dist a b, travel_mode := .UPSTREAM, travel_time_in_day := none } := by
  refine ⟨?_, ?_, ?_⟩
  · rw [DiGraph.countMode_def, riverPhase_edges dist rivers hnd, segsAll_count_down]
  · rw [DiGraph.countMode_def, riverPhase_edges dist rivers hnd, segsAll_count_up]
  · intro r hr a b hab
    have h := segsAll_find_down dist rivers hnd r hr a b hab
    constructor
    · rw [DiGraph.edgeData_def, riverPhase_edges dist rivers hnd, h.1]
      rfl
    · rw [DiGraph.edgeData_def, riverPhase_edges dist rivers hnd, h.2]
      rfl

/-- A three-point river used as the witness input for the amended C6. -/
def W3r : River :=
  { name := some "w", points_in_direction_of_water_flow := [0, 1, 2], start := 0, stop := 2 }

/-- Witness for the amended C6 on a three-point river: two DOWNSTREAM and
two UPSTREAM edges, and the consecutive pair `(0, 1)` has its
DOWNSTREAM/UPSTREAM edges with the same distance. -/
theorem C6_river_segments_amended_witness :
    (allPts [W3r]).Nodup ∧
    (riverPhase lineDist [W3r]).countMode TravelMode.DOWNSTREAM = 2 ∧
    (riverPhase lineDist [W3r]).edgeData 0 1 =
      some { distance := 1, travel_mode := .DOWNSTREAM, travel_time_in_day := none } ∧
    (riverPhase lineDist [W3r]).edgeData 1 0 =
      some { distance := 1, travel_mode := .UPSTREAM, travel_time_in_day := none } := by
  have h := C6_river_segments_amended lineDist [W3r] (by decide)
  have hpair := h.2.2 W3r (by simp) 0 1 (by decide)
  refine ⟨by decide, ?_, ?_, ?_⟩
  · rw [h.1]
    decide
  · rw [hpair.1, lineDist_01]
  · rw [hpair.2, lineDist_01]

/-- C7 (counterexample): the claim says a River over fewer than 2 points
is rejected at construction of the data-model value; but constructing a
`River` over the one-point sequence `[7]` succeeds — the attrs validators
check only element types and the `start`/`end` defaults index a non-empty
sequence fine, so only `load_rivers`' explicit length check rejects short
rivers. -/
theorem C7_one_point_river_constructs :
    River.construct (some "R") [7] =
      some { name := some "R", points_in_direction_of_water_flow := [7], start := 7, stop := 7 } := by
  decide

/-- C7 (amended): direct `River` construction fails only on the empty
sequence (the `start`/`end` attrs defaults evaluate `pts[0]`/`pts[-1]`,
raising `IndexError`); a one-point sequence constructs a River whose start
and end are that point.  Sequences of fewer than 2 points are rejected
only by the `load_rivers` length check, before construction. -/
theorem C7_river_construction_amended (name : Option String) (p : Nat) :
    River.construct name [] = none ∧
    River.construct name [p] =
      some { name := name, points_in_direction_of_water_flow := [p], start := p, stop := p } ∧
    load_river_from_coords name [p] = none ∧
    load_river_from_coords name [] = none := by
  refine ⟨rfl, rfl, ?_, rfl⟩
  unfold load_river_from_coords
  rw [if_pos (by simp)]

/-- C8: the claim says every default speed configuration in the source
gives the downstream river speed a strictly greater value than the
upstream speed.  `travel_speed.py`'s `NORMAL_RIVER` does (upstream 15,
downstream 40), but `create_waypoints.py`'s `NORMAL_RIVER` swaps them
(upstream 40, downstream 15), so under that draft's defaults a positive
distance takes strictly longer downstream than upstream — the swap the
spec itself flags as the latent bug. -/
theorem C8_swapped_river_speeds :
    travel_speed.NORMAL_RIVER.downstream_speed_in_miles_per_day >
      travel_speed.NORMAL_RIVER.upstream_speed_in_miles_per_day ∧
    create_waypoints.NORMAL_RIVER.downstream_speed_in_miles_per_day <
      create_waypoints.NORMAL_RIVER.upstream_speed_in_miles_per_day ∧
    create_waypoints.DEFAULT_SPEED_INFO.distance_to_travel_time_in_days 30 TravelMode.DOWNSTREAM >
      create_waypoints.DEFAULT_SPEED_INFO.distance_to_travel_time_in_days 30 TravelMode.UPSTREAM := by
  refine ⟨by norm_num [travel_speed.NORMAL_RIVER], by norm_num [create_waypoints.NORMAL_RIVER], ?_⟩
  show (30 : ℚ) / 15 > 30 / 40
  norm_num

/-- C10: `pretty_print_path`'s behaviour does not depend on its (misspelled)
graph parameter: for any module state — the module-level `waypoint_graph`
the body actually reads, and the node rendering — and any path, calling it
with two different graphs produces identical output and fails
identically, since the parameter `wayppint_graph` is never read. -/
theorem C10_pretty_print_path_ignores_parameter
    (waypoint_graph : DiGraph) (prettyName : Nat → String)
    (g1 g2 : DiGraph) (path : List Nat) :
    pretty_print_path waypoint_graph prettyName g1 path =
      pretty_print_path waypoint_graph prettyName g2 path := rfl

/-- C5 (counterexample): the claim says querying a proximity index with
`k` greater than the indexed collection size returns all points ordered by
distance and does not raise; but `sklearn`'s `BallTree.query` raises
`ValueError` when `k` exceeds the number of indexed points, so
`closest_n_points_to` on a two-point index with `k = 3` raises (modelled
`none`) instead of returning the two points. -/
theorem C5_query_overflow_raises : closest_n_points_to lineDist [0, 1] 9 3 = none := by
  decide

/-- C5 (amended): a query with `k` greater than the indexed collection
size raises `ValueError` (modelled `none`); only for `k` at most the
collection size does the query succeed, returning exactly `k` indexed
points ordered by increasing distance from the query point. -/
theorem C5_closest_n_amended (dist : Nat → Nat → ℚ) (pts : List Nat) (q k : Nat) :
    (pts.length < k → closest_n_points_to dist pts q k = none) ∧
    (k ≤ pts.length →
      ∃ l, closest_n_points_to dist pts q k = some l ∧ l.length = k ∧
        List.Sorted (distLe dist q) l ∧ ∀ x ∈ l, x ∈ pts) := by
  constructor
  · intro h
    unfold closest_n_points_to
    rw [if_pos h]
  · intro h
    refine ⟨_, closest_n_eq (Nat.not_lt.mpr h), ?_, ?_, ?_⟩
    · rw [List.length_take, List.length_insertionSort]
      exact Nat.min_eq_left h
    · exact (List.sorted_insertionSort _ _).sublist (List.take_sublist _ _)
    · intro x hx
      have : x ∈ List.insertionSort (distLe dist q) pts := List.take_subset _ _ hx
      rw [List.mem_insertionSort] at this
      exact this

/-- Witness for the amended C5: on a two-point index, `k = 3` raises while
`k = 2` returns both points in distance order. -/
theorem C5_closest_n_amended_witness :
    closest_n_points_to lineDist [5, 9] 0 3 = none ∧
    ∃ l, closest_n_points_to lineDist [5, 9] 0 2 = some l ∧ l.length = 2 ∧
      List.Sorted (distLe lineDist 0) l ∧ ∀ x ∈ l, x ∈ [5, 9] :=
  ⟨(C5_closest_n_amended lineDist [5, 9] 0 3).1 (by decide),
   (C5_closest_n_amended lineDist [5, 9] 0 2).2 (by decide)⟩

/-- A decorated waypoint graph on which hop-count search and travel-time
search disagree: the direct OVERLAND edge `0 → 2` is 100 miles (5 days on
foot), while the two-hop river route `0 → 1 → 2` is two 60-mile DOWNSTREAM
legs (1.5 days each at the 40 miles/day downstream default). -/
def gC1 : DiGraph :=
  decorate_with_travel_time_in_place
    (((DiGraph.empty.add_edge 0 2 100 .OVERLAND).add_edge 0 1 60 .DOWNSTREAM).add_edge
      1 2 60 .DOWNSTREAM)
    travel_speed.DEFAULT_SPEED_INFO

theorem find_decorate (s : SpeedInfo) (u v : Nat) :
    ∀ l : List (Nat × Nat × EdgeData),
      (l.map (fun e =>
        let t := s.distance_to_travel_time_in_days e.2.2.distance e.2.2.travel_mode
        (e.1, e.2.1, { e.2.2 with travel_time_in_day := some t }))).find? (epred u v) =
      (l.find? (epred u v)).map (fun e =>
        let t := s.distance_to_travel_time_in_days e.2.2.distance e.2.2.travel_mode
        (e.1, e.2.1, { e.2.2 with travel_time_in_day := some t })) := by
  intro l
  induction l with
  | nil => rfl
  | cons e es ih =>
      rw [List.map_cons]
      by_cases hp : epred u v e = true
      · rw [List.find?_cons_of_pos _ (by exact hp), List.find?_cons_of_pos _ hp]
        rfl
      · rw [List.find?_cons_of_neg _ (by exact hp), List.find?_cons_of_neg _ hp, ih]

/-- Decoration rewrites each present edge's time key from its distance and
mode, and touches nothing else. -/
theorem DiGraph.edgeData_decorate (g : DiGraph) (s : SpeedInfo) (u v : Nat) :
    (decorate_with_travel_time_in_place g s).edgeData u v =
      (g.edgeData u v).map (fun ed =>
        let t := s.distance_to_travel_time_in_days ed.distance ed.travel_mode
        { ed with travel_time_in_day := some t }) := by
  rw [DiGraph.edgeData_def, DiGraph.edgeData_def]
  show ((g.edges.map _).find? (epred u v)).map _ = _
  rw [find_decorate]
  cases g.edges.find? (epred u v) <;> rfl

/-- The undecorated pre-graph of `gC1`. -/
def gC1pre : DiGraph :=
  ((DiGraph.empty.add_edge 0 2 100 .OVERLAND).add_edge 0 1 60 .DOWNSTREAM).add_edge
    1 2 60 .DOWNSTREAM

theorem gC1pre_edge02 : gC1pre.edgeData 0 2 =
    some { distance := 100, travel_mode := .OVERLAND, travel_time_in_day := none } := by
  unfold gC1pre
  rw [DiGraph.edgeData_add_edge_ne _ _ _ (by simp),
    DiGraph.edgeData_add_edge_ne _ _ _ (by simp),
    DiGraph.edgeData_add_edge_self]
  rfl

theorem gC1pre_edge01 : gC1pre.edgeData 0 1 =
    some { distance := 60, travel_mode := .DOWNSTREAM, travel_time_in_day := none } := by
  unfold gC1pre
  rw [DiGraph.edgeData_add_edge_ne _ _ _ (by simp), DiGraph.edgeData_add_edge_self]
  have : ((DiGraph.empty.add_edge 0 2 100 .OVERLAND)).edgeTime 0 1 = none := rfl
  rw [this]

theorem gC1pre_edge12 : gC1pre.edgeData 1 2 =
    some { distance := 60, travel_mode := .DOWNSTREAM, travel_time_in_day := none } := by
  unfold gC1pre
  rw [DiGraph.edgeData_add_edge_self]
  have : (((DiGraph.empty.add_edge 0 2 100 .OVERLAND)).add_edge 0 1 60 .DOWNSTREAM).edgeTime
      1 2 = none := rfl
  rw [this]

theorem gC1_time02 : gC1.edgeData 0 2 =
    some { distance := 100, travel_mode := .OVERLAND, travel_time_in_day := some 5 } := by
  show (decorate_with_travel_time_in_place gC1pre travel_speed.DEFAULT_SPEED_INFO).edgeData 0 2 = _
  rw [DiGraph.edgeData_decorate, gC1pre_edge02]
  show some _ = some _
  congr 1
  show ({ distance := 100, travel_mode := .OVERLAND, travel_time_in_day := some ((100 : ℚ) / 20) } : EdgeData) = _
  norm_num

theorem gC1_time01 : gC1.edgeData 0 1 =
    some { distance := 60, travel_mode := .DOWNSTREAM, travel_time_in_day := some (3 / 2) } := by
  show (decorate_with_travel_time_in_place gC1pre travel_speed.DEFAULT_SPEED_INFO).edgeData 0 1 = _
  rw [DiGraph.edgeData_decorate, gC1pre_edge01]
  show some _ = some _
  congr 1
  show ({ distance := 60, travel_mode := .DOWNSTREAM, travel_time_in_day := some ((60 : ℚ) / 40) } : EdgeData) = _
  norm_num

theorem gC1_time12 : gC1.edgeData 1 2 =
    some { distance := 60, travel_mode := .DOWNSTREAM, travel_time_in_day := some (3 / 2) } := by
  show (decorate_with_travel_time_in_place gC1pre travel_speed.DEFAULT_SPEED_INFO).edgeData 1 2 = _
  rw [DiGraph.edgeData_decorate, gC1pre_edge12]
  show some _ = some _
  congr 1
  show ({ distance := 60, travel_mode := .DOWNSTREAM, travel_time_in_day := some ((60 : ℚ) / 40) } : EdgeData) = _
  norm_num

/-- C1: the claim says the shortest-path engine minimizes total travel
time over the decorated graph.  `create_waypoints.py` line 188 calls
`networkx.shortest_path(waypoint_graph, source, destination)` with no
`weight` argument, so networkx runs breadth-first search and minimizes the
number of edges, ignoring the `travel_time_in_day` decoration entirely: on
`gC1` it returns the one-hop path `[0, 2]` costing 5 days although the
valid path `[0, 1, 2]` costs only 3 days. -/
theorem C1_shortest_path_ignores_time :
    nx_shortest_path gC1 0 2 = some [0, 2] ∧
    gC1.isPath [0, 1, 2] = true ∧
    gC1.pathTime [0, 2] = some 5 ∧
    gC1.pathTime [0, 1, 2] = some 3 ∧
    (3 : ℚ) < 5 := by
  refine ⟨by decide, by decide, ?_, ?_, by norm_num⟩
  · show (do
      let e ← gC1.edgeData 0 2
      let t ← e.travel_time_in_day
      let tr ← gC1.pathTime [2]
      pure (t + tr)) = some 5
    rw [gC1_time02]
    show some ((5 : ℚ) + 0) = some 5
    norm_num
  · show (do
      let e ← gC1.edgeData 0 1
      let t ← e.travel_time_in_day
      let tr ← gC1.pathTime [1, 2]
      pure (t + tr)) = some 3
    rw [gC1_time01]
    show (do
      let t ← some ((3 : ℚ) / 2)
      let tr ← (do
        let e ← gC1.edgeData 1 2
        let t2 ← e.travel_time_in_day
        let tr2 ← gC1.pathTime [2]
        pure (t2 + tr2))
      pure (t + tr)) = some 3
    rw [gC1_time12]
    show some ((3 : ℚ) / 2 + (3 / 2 + 0)) = some 3
    norm_num
/-! ## The city–river phase -/

theorem foldlM_option_preserve_mem {α β : Type} (f : β → α → Option β) (Φ : β → Prop) :
    ∀ l : List α, (∀ g x, x ∈ l → ∀ g', f g x = some g' → Φ g → Φ g') →
      ∀ g g' : β, List.foldlM f g l = some g' → Φ g → Φ g'
  | [], _, g, g', h, hg => by
      rw [List.foldlM_nil] at h
      exact (Option.some.inj h) ▸ hg
  | x :: xs, hf, g, g', h, hg => by
      obtain ⟨g₁, h1, h2⟩ := foldlM_option_cons_some h
      exact foldlM_option_preserve_mem f Φ xs
        (fun g2 y hy g3 hfy hg2 => hf g2 y (List.mem_cons_of_mem _ hy) g3 hfy hg2)
        g₁ g' h2 (hf g x (List.mem_cons_self _ _) g₁ h1 hg)

theorem foldlM_option_establish_mem {α β : Type} (f : β → α → Option β) (Φ : β → Prop) :
    ∀ l : List α, (∀ g x, x ∈ l → ∀ g', f g x = some g' → Φ g → Φ g') →
      ∀ x₀ : α, (∀ g g', f g x₀ = some g' → Φ g') →
      ∀ g g' : β, List.foldlM f g l = some g' → x₀ ∈ l → Φ g'
  | [], _, x₀, _, g, g', _, hmem => by cases hmem
  | x :: xs, hf, x₀, hset, g, g', h, hmem => by
      obtain ⟨g₁, h1, h2⟩ := foldlM_option_cons_some h
      rcases List.mem_cons.mp hmem with hy | hy
      · subst hy
        exact foldlM_option_preserve_mem f Φ xs
          (fun g2 y hy2 g3 hfy hg2 => hf g2 y (List.mem_cons_of_mem _ hy2) g3 hfy hg2)
          g₁ g' h2 (hset g g₁ h1)
      · exact foldlM_option_establish_mem f Φ xs
          (fun g2 y hy2 g3 hfy hg2 => hf g2 y (List.mem_cons_of_mem _ hy2) g3 hfy hg2)
          x₀ hset g₁ g' h2 hy

/-- Python's `min` returns an element of its input. -/
theorem pyMin_mem (key : Nat → ℚ) :
    ∀ {l : List Nat} {m : Nat}, pyMin key l = some m → m ∈ l := by
  intro l
  cases l with
  | nil => intro m h; cases h
  | cons x xs =>
      intro m h
      have hm : m = xs.foldl (fun best y => if key y < key best then y else best) x :=
        (Option.some.inj h).symm
      subst hm
      clear h
      induction xs generalizing x with
      | nil => exact List.mem_singleton.mpr rfl
      | cons y ys ih =>
          show List.foldl _ (if key y < key x then y else x) ys ∈ x :: y :: ys
          by_cases hk : key y < key x
          · rw [if_pos hk]
            rcases List.mem_cons.mp (ih y) with h | h
            · rw [h]
              exact List.mem_cons_of_mem x (List.mem_cons_self y ys)
            · exact List.mem_cons_of_mem x (List.mem_cons_of_mem y h)
          · rw [if_neg hk]
            rcases List.mem_cons.mp (ih x) with h | h
            · rw [h]
              exact List.mem_cons_self x _
            · exact List.mem_cons_of_mem x (List.mem_cons_of_mem y h)

/-- Unfolding a successful `crStep`: Python's `min` found the closest
river point and both overland edges were added. -/
theorem crStep_some {dist : Nat → Nat → ℚ} {city : Nat} {g : DiGraph} {r : River}
    {g' : DiGraph} (h : crStep dist city g r = some g') :
    ∃ m, pyMin (dist city) r.points_in_direction_of_water_flow = some m ∧
      g' = ovAdd2 dist city g m := by
  unfold crStep at h
  cases hm : pyMin (dist city) r.points_in_direction_of_water_flow with
  | none => rw [hm] at h; cases h
  | some m =>
      rw [hm] at h
      exact ⟨m, rfl, (Option.some.inj h).symm⟩

/-- The invariant tracked through the city–river phase: the two overland
edges between city `c` and closest river point `m`, both carrying the
city-to-point distance. -/
def crTarget (dist : Nat → Nat → ℚ) (c m : Nat) (g : DiGraph) : Prop :=
  g.edgeModeDist c m = some (dist c m, TravelMode.OVERLAND) ∧
  g.edgeModeDist m c = some (dist c m, TravelMode.OVERLAND)

theorem crTarget_ovAdd2_set (dist : Nat → Nat → ℚ) (c m : Nat) (g : DiGraph)
    (hcm : c ≠ m) : crTarget dist c m (ovAdd2 dist c g m) := by
  unfold ovAdd2 crTarget
  constructor
  · rw [DiGraph.edgeModeDist_add_edge_ne _ _ _ (by intro hx; exact hcm hx.2),
      DiGraph.edgeModeDist_add_edge_self]
  · rw [DiGraph.edgeModeDist_add_edge_self]

theorem crTarget_ovAdd2_preserve (dist : Nat → Nat → ℚ) (c m c' m' : Nat) (g : DiGraph)
    (hcm : c ≠ m) (hm'c : m' ≠ c) (hc'm : c' ≠ m)
    (h : crTarget dist c m g) : crTarget dist c m (ovAdd2 dist c' g m') := by
  by_cases hcc : c' = c ∧ m' = m
  · obtain ⟨h1, h2⟩ := hcc
    subst h1
    subst h2
    exact crTarget_ovAdd2_set dist c' m' g hcm
  · unfold ovAdd2
    have hmiss1 : ¬(c' = c ∧ m' = m) := hcc
    have hmiss2 : ¬(c' = m ∧ m' = c) := fun hx => hc'm hx.1
    have hmiss3 : ¬(m' = c ∧ c' = m) := fun hx => hm'c hx.1
    have hmiss4 : ¬(m' = m ∧ c' = c) := fun hx => hcc ⟨hx.2, hx.1⟩
    unfold crTarget
    constructor
    · rw [DiGraph.edgeModeDist_add_edge_ne _ _ _ hmiss3,
        DiGraph.edgeModeDist_add_edge_ne _ _ _ hmiss1]
      exact h.1
    · rw [DiGraph.edgeModeDist_add_edge_ne _ _ _ hmiss4,
        DiGraph.edgeModeDist_add_edge_ne _ _ _ hmiss2]
      exact h.2

/-- C4 (amended): in the city–river phase, for every city and every river,
the city is connected bidirectionally by two OVERLAND edges to the single
point of that river closest to the city (Python's `min` over all of the
river's points — not endpoints, and with no `k = 30` query and no
symmetric endpoint-to-city pass), both edges carrying the
city-to-closest-point distance. -/
theorem C4_city_river_amended (dist : Nat → Nat → ℚ) (cities : List Nat)
    (rivers : List River) (g₀ g' : DiGraph) (c : Nat) (r : River) (m : Nat)
    (hrun : add_city_river_connections dist cities rivers g₀ = some g')
    (hc : c ∈ cities) (hr : r ∈ rivers)
    (hm : pyMin (dist c) r.points_in_direction_of_water_flow = some m)
    (hdisj : ∀ c' ∈ cities, ∀ r' ∈ rivers, c' ∉ r'.points_in_direction_of_water_flow) :
    g'.edgeModeDist c m = some (dist c m, TravelMode.OVERLAND) ∧
    g'.edgeModeDist m c = some (dist c m, TravelMode.OVERLAND) := by
  have hmmem : m ∈ r.points_in_direction_of_water_flow := pyMin_mem _ hm
  have hcm : c ≠ m := fun hx => hdisj c hc r hr (hx ▸ hmmem)
  have hstep_preserve : ∀ c'' ∈ cities, ∀ (g g₁ : DiGraph) (r' : River),
      crStep dist c'' g r' = some g₁ → r' ∈ rivers →
      crTarget dist c m g → crTarget dist c m g₁ := by
    intro c'' hc'' g g₁ r' hs hr' hg
    obtain ⟨m', hm', heq⟩ := crStep_some hs
    subst heq
    have hm'mem : m' ∈ r'.points_in_direction_of_water_flow := pyMin_mem _ hm'
    have hm'c : m' ≠ c := fun hx => hdisj c hc r' hr' (hx ▸ hm'mem)
    have hc'm : c'' ≠ m := fun hx => hdisj c'' hc'' r hr (hx ▸ hmmem)
    exact crTarget_ovAdd2_preserve dist c m c'' m' g hcm hm'c hc'm hg
  have hinner_preserve : ∀ c'' ∈ cities, ∀ g g₁ : DiGraph,
      rivers.foldlM (crStep dist c'') g = some g₁ →
      crTarget dist c m g → crTarget dist c m g₁ := by
    intro c'' hc'' g g₁ hfold hg
    exact foldlM_option_preserve_mem (crStep dist c'') (crTarget dist c m) rivers
      (fun g2 r' hr' g3 hs hg2 => hstep_preserve c'' hc'' g2 g3 r' hs hr' hg2)
      g g₁ hfold hg
  have hinner_establish : ∀ g g₁ : DiGraph,
      rivers.foldlM (crStep dist c) g = some g₁ → crTarget dist c m g₁ := by
    intro g g₁ hfold
    refine foldlM_option_establish_mem (crStep dist c) (crTarget dist c m) rivers
      (fun g2 r' hr' g3 hs hg2 => hstep_preserve c hc g2 g3 r' hs hr' hg2) r
      ?_ g g₁ hfold hr
    intro g2 g3 hs
    obtain ⟨m', hm', heq⟩ := crStep_some hs
    rw [hm] at hm'
    have hmm : m' = m := (Option.some.inj hm').symm
    subst hmm
    subst heq
    exact crTarget_ovAdd2_set dist c m' g2 hcm
  exact foldlM_option_establish_mem
    (fun g city => rivers.foldlM (crStep dist city) g) (crTarget dist c m) cities
    (fun g city hcity g₁ hfold hg => hinner_preserve city hcity g g₁ hfold hg) c
    (fun g g₁ hfold => hinner_establish g g₁ hfold) g₀ g' hrun hc

/-- Positions for the C4 counterexample world: city `100` sits at
coordinate 6, the three river points `0, 1, 2` at coordinates 0, 5 and 10,
so the river's middle point `1` is closest to the city while the nearer
endpoint `2` is 4 away and `0` is 6 away. -/
def pos4 (i : Nat) : Nat :=
  if i = 100 then 6 else if i = 0 then 0 else if i = 1 then 5 else 10

/-- The counterexample metric induced by `pos4`. -/
def d4 (i j : Nat) : ℚ := ((max (pos4 i) (pos4 j) - min (pos4 i) (pos4 j) : Nat) : ℚ)

/-- The three-point river of the C4 counterexample. -/
def W4r : River :=
  { name := some "s", points_in_direction_of_water_flow := [0, 1, 2], start := 0, stop := 2 }

/-- The graph the city–river phase actually builds on the C4
counterexample world. -/
def gW4 : DiGraph :=
  { nodes := [100, 1],
    edges := [(100, 1, { distance := 1, travel_mode := .OVERLAND, travel_time_in_day := none }),
              (1, 100, { distance := 1, travel_mode := .OVERLAND, travel_time_in_day := none })] }

/-- C4 (counterexample): the claim says the city–river phase connects
every city to its 30 nearest river endpoints (and river endpoints back to
cities).  On a world with one city and one three-point river, the phase
adds exactly two OVERLAND edges — between the city and the river's
*middle* point (the closest point of the river) — and no edge at all to
either river endpoint. -/
theorem C4_no_endpoint_connections_counterexample :
    add_city_river_connections d4 [100] [W4r] DiGraph.empty = some gW4 ∧
    gW4.edgeData 100 0 = none ∧
    gW4.edgeData 100 2 = none ∧
    gW4.edgeData 0 100 = none ∧
    gW4.edgeData 2 100 = none ∧
    gW4.edgeModeDist 100 1 = some (1, TravelMode.OVERLAND) := by
  refine ⟨by decide, by decide, by decide, by decide, by decide, by decide⟩

/-- Witness for the amended C4 on the same world: the phase connects city
`100` bidirectionally to the river's closest point `1` with the
city-to-point distance. -/
theorem C4_city_river_amended_witness :
    add_city_river_connections d4 [100] [W4r] DiGraph.empty = some gW4 ∧
    (100 : Nat) ∈ [(100 : Nat)] ∧ W4r ∈ [W4r] ∧
    pyMin (d4 100) W4r.points_in_direction_of_water_flow = some 1 ∧
    (∀ c' ∈ [(100 : Nat)], ∀ r' ∈ [W4r], c' ∉ r'.points_in_direction_of_water_flow) ∧
    gW4.edgeModeDist 100 1 = some (d4 100 1, TravelMode.OVERLAND) ∧
    gW4.edgeModeDist 1 100 = some (d4 100 1, TravelMode.OVERLAND) := by
  have hrun : add_city_river_connections d4 [100] [W4r] DiGraph.empty = some gW4 := by decide
  have h := C4_city_river_amended d4 [100] [W4r] DiGraph.empty gW4 100 W4r 1 hrun
    (by decide) (by simp) (by decide) (by decide)
  exact ⟨hrun, by decide, by simp, by decide, by decide, h.1, h.2⟩

/-! ## The canonicalizer's collapsing pass -/

/-- While every remaining step is river-eligible with the buffer head's
river name and travel mode and nonzero distance, the reduction keeps
extending the buffer and finally flushes it as one collapsed step. -/
theorem canonGo_all_extend (r : Option String) (m : TravelMode) :
    ∀ (steps : List (DirectionsStep × Bool)) (b0 : DirectionsStep)
      (bs acc : List DirectionsStep),
      b0.river_name = r → b0.travel_mode = m →
      (∀ s ∈ steps, s.2 = true ∧ s.1.river_name = r ∧ s.1.travel_mode = m ∧ s.1.distance ≠ 0) →
      canonGo (b0 :: bs) acc steps = acc ++ [collapseBuffer b0 (bs ++ steps.map Prod.fst)]
  | [], b0, bs, acc, _, _, _ => by
      show acc ++ flushBuffer (b0 :: bs) = _
      rw [flushBuffer]
      rw [List.map_nil, List.append_nil]
  | (s, e) :: rest, b0, bs, acc, hr, hm, hsteps => by
      obtain ⟨he, hrn, htm, hd⟩ := hsteps (s, e) (List.mem_cons_self _ _)
      subst he
      show canonGo (b0 :: bs) acc ((s, true) :: rest) = _
      rw [show canonGo (b0 :: bs) acc ((s, true) :: rest) =
        if s.distance = 0 then canonGo (b0 :: bs) acc rest
        else
          if (true : Bool) ∧ s.river_name = b0.river_name ∧ s.travel_mode = b0.travel_mode then
            canonGo (b0 :: bs ++ [s]) acc rest
          else
            if (true : Bool) then canonGo [s] (acc ++ [collapseBuffer b0 bs]) rest
            else canonGo [] ((acc ++ [collapseBuffer b0 bs]) ++ [s]) rest
        from rfl]
      rw [if_neg hd, if_pos ⟨rfl, hrn.trans hr.symm, htm.trans hm.symm⟩]
      rw [show (b0 :: bs ++ [s] : List DirectionsStep) = b0 :: (bs ++ [s]) from rfl]
      rw [canonGo_all_extend r m rest b0 (bs ++ [s]) acc hr hm
        (fun x hx => hsteps x (List.mem_cons_of_mem _ hx))]
      rw [List.map_cons, List.append_assoc]
      rfl

theorem getLastD_map_cand :
    ∀ (ls : List RawLeg) (l : RawLeg),
      (ls.map mkCandidate).getLastD (mkCandidate l) = mkCandidate (ls.getLastD l)
  | [], l => rfl
  | x :: xs, l => by
      rw [List.map_cons, List.getLastD_cons, List.getLastD_cons, getLastD_map_cand xs x]

theorem map_cand_distance (ls : List RawLeg) :
    (ls.map mkCandidate).map DirectionsStep.distance = ls.map RawLeg.distance := by
  rw [List.map_map]
  rfl

theorem map_cand_time (ls : List RawLeg) :
    (ls.map mkCandidate).map DirectionsStep.time = ls.map RawLeg.time := by
  rw [List.map_map]
  rfl

/-- C9: for a node path whose consecutive legs are all segments of the
same river (river-to-river, same river name, same travel mode, nonzero
distances), the canonicalizer collapses them into a single step spanning
from the first leg's source to the last leg's destination, with summed
distance and summed time, preserving the travel mode and river name.
The Path Canonicalizer and `DirectionsStep` are absent from `src/`
(`pretty_print_path` prints raw segments); both are modelled from spec
§4.6. -/
theorem C9_canonicalize_collapses (l : RawLeg) (ls : List RawLeg)
    (r : Option String) (m : TravelMode)
    (h : ∀ x ∈ l :: ls, legEligible x = true ∧ x.source.riverName = r ∧
      x.travel_mode = m ∧ x.distance ≠ 0) :
    canonicalize_path (l :: ls) =
      .ok [{ source := l.source.id,
             destination := (ls.getLastD l).destination.id,
             distance := ((l :: ls).map RawLeg.distance).sum,
             time := ((l :: ls).map RawLeg.time).sum,
             travel_mode := m,
             river_name := r }] := by
  obtain ⟨hel, hrn, htm, hd⟩ := h l (List.mem_cons_self _ _)
  unfold canonicalize_path
  rw [if_neg (by simp)]
  rw [show (l :: ls).map (fun x => (mkCandidate x, legEligible x)) =
    (mkCandidate l, legEligible l) :: ls.map (fun x => (mkCandidate x, legEligible x))
    from rfl]
  rw [hel]
  rw [show canonGo [] [] ((mkCandidate l, true) :: ls.map (fun x => (mkCandidate x, legEligible x))) =
    if (mkCandidate l).distance = 0 then
      canonGo [] [] (ls.map (fun x => (mkCandidate x, legEligible x)))
    else
      if (true : Bool) then canonGo [mkCandidate l] [] (ls.map (fun x => (mkCandidate x, legEligible x)))
      else canonGo [] [(mkCandidate l)] (ls.map (fun x => (mkCandidate x, legEligible x)))
    from rfl]
  have hd' : (mkCandidate l).distance ≠ 0 := hd
  rw [if_neg hd', if_pos rfl]
  rw [canonGo_all_extend r m (ls.map (fun x => (mkCandidate x, legEligible x)))
    (mkCandidate l) [] [] hrn htm ?hsteps]
  case hsteps =>
    intro s hs
    rw [List.mem_map] at hs
    obtain ⟨x, hx, hxe⟩ := hs
    obtain ⟨he2, hr2, ht2, hd2⟩ := h x (List.mem_cons_of_mem _ hx)
    subst hxe
    exact ⟨he2, hr2, ht2, hd2⟩
  rw [List.nil_append]
  rw [show (ls.map (fun x => (mkCandidate x, legEligible x))).map Prod.fst =
    ls.map mkCandidate from by rw [List.map_map]; rfl]
  unfold collapseBuffer
  rw [List.nil_append, getLastD_map_cand, map_cand_distance, map_cand_time]
  simp [mkCandidate, htm, hrn, List.sum_cons]

/-- A waypoint of the witness river for C9. -/
def sellenNode (i : Nat) : CanonNode := { id := i, kind := .riverPoint (some "Sellen") }

/-- One 10-mile DOWNSTREAM leg of the witness river, decorated with the
default downstream travel time (10 miles at 40 miles/day). -/
def sellenLeg (i : Nat) : RawLeg :=
  { source := sellenNode i
    destination := sellenNode (i + 1)
    travel_mode := .DOWNSTREAM
    distance := 10
    time := travel_speed.DEFAULT_SPEED_INFO.distance_to_travel_time_in_days 10 .DOWNSTREAM }

/-- Witness for C9: the full downstream traversal of a single 5-point
river with uniform 10-mile spacing canonicalizes to exactly one step
spanning all 5 points, 40 miles, 1 day at the default 40 miles/day
downstream speed. -/
theorem C9_canonicalize_collapses_witness :
    (∀ x ∈ sellenLeg 0 :: [sellenLeg 1, sellenLeg 2, sellenLeg 3],
      legEligible x = true ∧ x.source.riverName = some "Sellen" ∧
      x.travel_mode = TravelMode.DOWNSTREAM ∧ x.distance ≠ 0) ∧
    canonicalize_path (sellenLeg 0 :: [sellenLeg 1, sellenLeg 2, sellenLeg 3]) =
      .ok [{ source := 0, destination := 4, distance := 40, time := 1,
             travel_mode := .DOWNSTREAM, river_name := some "Sellen" }] := by
  have hhyp : ∀ x ∈ sellenLeg 0 :: [sellenLeg 1, sellenLeg 2, sellenLeg 3],
      legEligible x = true ∧ x.source.riverName = some "Sellen" ∧
      x.travel_mode = TravelMode.DOWNSTREAM ∧ x.distance ≠ 0 := by
    intro x hx
    fin_cases hx <;> exact ⟨rfl, rfl, rfl, by norm_num [sellenLeg]⟩
  refine ⟨hhyp, ?_⟩
  rw [C9_canonicalize_collapses (sellenLeg 0) [sellenLeg 1, sellenLeg 2, sellenLeg 3]
    (some "Sellen") .DOWNSTREAM hhyp]
  norm_num [sellenLeg, sellenNode, SpeedInfo.distance_to_travel_time_in_days,
    travel_speed.DEFAULT_SPEED_INFO, travel_speed.NORMAL_RIVER, List.getLastD]
